import Mathlib

/-!
# Endpoint request construction and dispatch (typedapi)

A shallow embedding of three generated endpoint modules of the typed API,

* `typedapi/ingest/getpipeline/get_pipeline.go`   (`GetPipeline`)
* `typedapi/ccr/unfollow/unfollow.go`             (`Unfollow`)
* `typedapi/core/closepointintime/close_point_in_time.go` (`ClosePointInTime`)

of the payload type `typedapi/ml/revertmodelsnapshot/request.go`
(`Request`), of the enumeration
`typedapi/types/enums/dfiindependencemeasure/dfiindependencemeasure.go` and of
four constructors of `typedapi/types`, together with the parts of the Go
standard library they call (`net/url` escaping, `url.Values`, `http.Header`,
`fmt.Errorf` with `%w`, `encoding/json` on `Request`, `strings.ToLower`).

Conventions of the embedding:

* a Go `string` is a Lean `String`; byte-wise library code (`net/url` escaping,
  header-key canonicalisation) runs over the UTF-8 bytes of the string;
* a Go `[]byte` is a `List UInt8`, and a nilable slice or pointer is an `Option`;
* a Go map with string keys is an association list kept sorted by key, so that
  equal maps are equal lists;
* a method with a pointer receiver returns the updated receiver; a function that
  returns `(value, nil)` or `(nil, err)` returns an `Except`: `.ok value` is the
  first and `.error err` the second, which carries no value;
* the transport is a state transformer over an abstract world `σ`.
-/

set_option autoImplicit false

namespace GoElastic

/-! ## Go values: byte slices, errors, contexts -/

/-- A Go byte slice. -/
abbrev Bytes := List UInt8

/-- Go `error` values as the endpoints build them: `errors.New(msg)`, and
`fmt.Errorf(pfx + "%w", err)`, which wraps `err`. -/
inductive GoError where
  | new (msg : String)
  | errorf (pfx : String) (err : GoError)
  deriving DecidableEq, Repr

namespace GoError

/-- The `Error()` method: the message of the error. For a wrapping error the
verb `%w` is replaced by the message of the wrapped error. -/
def Error : GoError → String
  | .new msg => msg
  | .errorf pfx err => pfx ++ err.Error

/-- The function `errors.Unwrap`: the wrapped error, if any. -/
def Unwrap : GoError → Option GoError
  | .new _ => none
  | .errorf _ err => some err

end GoError

/-- A `context.Context`: the background context, or one supplied by the caller. -/
inductive Context where
  | background
  | custom (id : Nat)
  deriving DecidableEq, Repr

/-! ## `net/url`: escaping -/

/-- The escaping modes of `net/url` that the endpoints reach: `encodePath`
(rendering of `URL.Path`), `encodePathSegment` (`url.PathEscape`) and
`encodeQueryComponent` (`url.QueryEscape`). -/
inductive encoding where
  | encodePath
  | encodePathSegment
  | encodeQueryComponent
  deriving DecidableEq, Repr

/-- The UTF-8 bytes of a string, as natural numbers below 256. -/
def utf8Bytes (s : String) : List Nat :=
  s.data.flatMap fun ch => (String.utf8EncodeChar ch).map UInt8.toNat

/-- Byte value of an ASCII character. -/
abbrev byteOf (ch : Char) : Nat := ch.toNat

/-- The function `shouldEscape` of `net/url`, for the three modes above: whether byte `c`
must be percent-encoded. -/
def shouldEscape (c : Nat) (mode : encoding) : Bool :=
  -- §2.3 Unreserved characters (alphanum)
  if (byteOf 'a' ≤ c ∧ c ≤ byteOf 'z') ∨ (byteOf 'A' ≤ c ∧ c ≤ byteOf 'Z')
      ∨ (byteOf '0' ≤ c ∧ c ≤ byteOf '9') then false
  -- §2.3 Unreserved characters (mark)
  else if c = byteOf '-' ∨ c = byteOf '_' ∨ c = byteOf '.' ∨ c = byteOf '~' then false
  -- §2.2 Reserved characters (reserved)
  else if c = byteOf '$' ∨ c = byteOf '&' ∨ c = byteOf '+' ∨ c = byteOf ',' ∨ c = byteOf '/'
      ∨ c = byteOf ':' ∨ c = byteOf ';' ∨ c = byteOf '=' ∨ c = byteOf '?' ∨ c = byteOf '@' then
    match mode with
    | .encodePath => c = byteOf '?'
    | .encodePathSegment =>
      c = byteOf '/' ∨ c = byteOf ';' ∨ c = byteOf ',' ∨ c = byteOf '?'
    | .encodeQueryComponent => true
  -- Everything else must be escaped.
  else true

/-- The table `upperhex`. -/
def upperhex : List Char := "0123456789ABCDEF".data

/-- One step of the output loop of `escape`: the characters written for byte `c`. -/
def escapeByte (mode : encoding) (c : Nat) : List Char :=
  if c = byteOf ' ' ∧ mode = .encodeQueryComponent then ['+']
  else if shouldEscape c mode then ['%', upperhex.getD (c >>> 4) '0', upperhex.getD (c &&& 15) '0']
  else [Char.ofNat c]

/-- The function `escape` of `net/url`. The source first counts the bytes to escape, to size
the output and to return `s` itself when there is nothing to do; the output is
that of the byte loop in every case. -/
def escape (s : String) (mode : encoding) : String :=
  ⟨(utf8Bytes s).flatMap (escapeByte mode)⟩

/-- The function `url.PathEscape`. -/
def PathEscape (s : String) : String := escape s .encodePathSegment

/-- The function `url.QueryEscape`. -/
def QueryEscape (s : String) : String := escape s .encodeQueryComponent

/-- Number of `/` in a path: a rooted path with `n` slashes has `n` segments. -/
def slashCount (p : String) : Nat := p.data.count '/'

/-! ## Go maps with string keys -/

/-- A map from strings to string slices, as an association list sorted by key
(byte order, which is code-point order). -/
abbrev StrMap := List (String × List String)

namespace StrMap

/-- The assignment `m[k] = vs`. -/
def set (k : String) (vs : List String) : StrMap → StrMap
  | [] => [(k, vs)]
  | (k', vs') :: rest =>
    if k.data < k'.data then (k, vs) :: (k', vs') :: rest
    else if k = k' then (k, vs) :: rest
    else (k', vs') :: set k vs rest

/-- The lookup `m[k]`, `none` when the key is absent. -/
def get? (k : String) : StrMap → Option (List String)
  | [] => none
  | (k', vs') :: rest => if k = k' then some vs' else get? k rest

/-- Whether key `k` is present. -/
def has (m : StrMap) (k : String) : Bool := (get? k m).isSome

end StrMap

/-! ## `net/textproto` and `net/http`: headers -/

/-- The function `validHeaderFieldByte` of `net/textproto`: the token characters of RFC 7230. -/
def validHeaderFieldByte (c : Char) : Bool :=
  (byteOf 'a' ≤ c.toNat ∧ c.toNat ≤ byteOf 'z') ∨ (byteOf 'A' ≤ c.toNat ∧ c.toNat ≤ byteOf 'Z')
    ∨ (byteOf '0' ≤ c.toNat ∧ c.toNat ≤ byteOf '9')
    ∨ c ∈ ['!', '#', '$', '%', '&', Char.ofNat 39, '*', '+', '-', '.', '^', '_', Char.ofNat 96,
        '|', '~']

/-- The distance `toLower = 'a' - 'A'`. -/
def toLower : Nat := byteOf 'a' - byteOf 'A'

/-- The canonicalising loop of `canonicalMIMEHeaderKey`: first letter upper
case, and upper case after each dash, lower case elsewhere. -/
def canonLoop : Bool → List Char → List Char
  | _, [] => []
  | upper, c :: cs =>
    let c' :=
      if upper ∧ byteOf 'a' ≤ c.toNat ∧ c.toNat ≤ byteOf 'z' then Char.ofNat (c.toNat - toLower)
      else if ¬ upper ∧ byteOf 'A' ≤ c.toNat ∧ c.toNat ≤ byteOf 'Z' then
        Char.ofNat (c.toNat + toLower)
      else c
    c' :: canonLoop (c' == '-') cs

/-- The function `canonicalMIMEHeaderKey` of `net/textproto`: a key holding a byte that is
not a token character (a space included) is returned unchanged, any other key
is canonicalised. (A multi-byte character consists of bytes that are not token
characters.) -/
def canonicalMIMEHeaderKey (a : List Char) : List Char :=
  if a.all validHeaderFieldByte then canonLoop true a else a

/-- The quick check of `CanonicalMIMEHeaderKey`: scan for the first byte that
is invalid (return `s`) or not in canonical case (canonicalise `s`). -/
def canonicalScan (s : List Char) : Bool → List Char → List Char
  | _, [] => s
  | upper, c :: cs =>
    if ¬ validHeaderFieldByte c then s
    else if upper ∧ byteOf 'a' ≤ c.toNat ∧ c.toNat ≤ byteOf 'z' then canonicalMIMEHeaderKey s
    else if ¬ upper ∧ byteOf 'A' ≤ c.toNat ∧ c.toNat ≤ byteOf 'Z' then canonicalMIMEHeaderKey s
    else canonicalScan s (c == '-') cs

/-- The function `textproto.CanonicalMIMEHeaderKey`. -/
def CanonicalMIMEHeaderKey (s : String) : String := ⟨canonicalScan s.data true s.data⟩

/-- An `http.Header`. -/
structure Header where
  entries : StrMap
  deriving DecidableEq, Repr

namespace Header

/-- The method `Header.Set`: the entry of the canonical key is replaced by the
single value. -/
def Set (h : Header) (key value : String) : Header :=
  ⟨StrMap.set (CanonicalMIMEHeaderKey key) [value] h.entries⟩

/-- The method `Header.Get`: the first value of the canonical key, or `""`. -/
def Get (h : Header) (key : String) : String :=
  match StrMap.get? (CanonicalMIMEHeaderKey key) h.entries with
  | some (v :: _) => v
  | _ => ""

/-- The method `Header.Clone`: a deep copy. -/
def Clone (h : Header) : Header := h

/-- Whether the header map holds an entry under the canonical form of `key`. -/
def Has (h : Header) (key : String) : Bool := StrMap.has h.entries (CanonicalMIMEHeaderKey key)

end Header

/-! ## `net/url`: query values and URLs -/

/-- A `url.Values`. -/
structure Values where
  entries : StrMap
  deriving DecidableEq, Repr

namespace Values

/-- The method `Values.Set`. -/
def Set (v : Values) (key value : String) : Values := ⟨StrMap.set key [value] v.entries⟩

/-- The inner loop of `Values.Encode` over the values of one key. -/
def encodeKey (keyEscaped : String) : String → List String → String
  | buf, [] => buf
  | buf, v :: vs =>
    let buf := if buf ≠ "" then buf ++ "&" else buf
    encodeKey keyEscaped (buf ++ keyEscaped ++ "=" ++ QueryEscape v) vs

/-- The method `Values.Encode`: `key=value` pairs in key order, joined by `&`. -/
def Encode (v : Values) : String :=
  if v.entries.length = 0 then ""
  else v.entries.foldl (fun buf kv => encodeKey (QueryEscape kv.1) buf kv.2) ""

end Values

/-- The query string as the specification words it, for pairs given in the
order of their keys: `key=value` items, keys and values query-escaped, joined
by `&`. -/
def specQuery (pairs : List (String × String)) : String :=
  String.intercalate "&" (pairs.map fun kv => QueryEscape kv.1 ++ "=" ++ QueryEscape kv.2)

/-- The fields of `url.URL` that the endpoints write; every other field keeps
its zero value. -/
structure URL where
  Scheme : String := ""
  Path : String := ""
  RawQuery : String := ""
  deriving DecidableEq, Repr

/-! ## `net/http`: requests, responses, transport -/

/-- An `http.Request` as built by `http.NewRequest`: method, URL, headers, the
bytes of the body and the context. -/
structure HttpReq where
  Method : String
  URL : URL
  Header : Header
  Body : Bytes
  ctx : Context
  deriving DecidableEq, Repr

/-- The call `http.NewRequestWithContext(ctx, method, u.String(), body)`. The endpoints
pass the rendering of a URL whose scheme is `http` and whose path starts with
`/`; parsing that rendering succeeds and gives back scheme, path and query, so
the error result is always `nil` here. An empty method means `GET`. -/
def NewRequestWithContext (ctx : Context) (method : String) (u : URL) (body : Bytes) :
    Except GoError HttpReq :=
  .ok { Method := if method = "" then "GET" else method, URL := u, Header := ⟨[]⟩,
        Body := body, ctx := ctx }

/-- The function `http.NewRequest`: `NewRequestWithContext` with the background context. -/
def NewRequest (method : String) (u : URL) (body : Bytes) : Except GoError HttpReq :=
  NewRequestWithContext .background method u body

/-- The body of a response, an `io.ReadCloser`: the bytes not yet read, the
error that ends reading (`none` for a clean end of stream), the error that
`Close` returns, and the number of times `Close` has been called. -/
structure Body where
  data : Bytes
  readErr : Option GoError := none
  closeErr : Option GoError := none
  closeCalls : Nat := 0
  deriving DecidableEq, Repr

namespace Body

/-- The call `io.Copy(ioutil.Discard, body)`: reads the body to its end; the
result is the error that ended the reading, if any. -/
def discard (b : Body) : Body × Option GoError := ({ b with data := [] }, b.readErr)

/-- The method `Close`. -/
def Close (b : Body) : Body × Option GoError :=
  ({ b with closeCalls := b.closeCalls + 1 }, b.closeErr)

end Body

/-- An `http.Response`. -/
structure HttpResponse where
  StatusCode : Int
  Header : Header := ⟨[]⟩
  Body : Body
  deriving DecidableEq, Repr

/-- The interface `elastictransport.Interface`: `Perform` returns a response or
an error, and may change the state `σ` of the world it lives in. -/
structure Transport (σ : Type) where
  Perform : HttpReq → σ → Except GoError HttpResponse × σ

/-- A transport that also counts the calls of `Perform`. -/
def Transport.counting {σ : Type} (tp : Transport σ) : Transport (σ × Nat) where
  Perform req w := ((tp.Perform req w.1).1, ((tp.Perform req w.1).2, w.2 + 1))

/-- What `IsSuccess` returns and leaves behind: the pair `(bool, error)`, the
final state of the response body (`none` when no response was obtained), and
the state of the world. -/
structure IsSuccessResult (σ : Type) where
  ret : Bool × Option GoError
  body : Option Body
  world : σ

/-- The media type of the compatibility headers. -/
def mediaType : String := "application/vnd.elasticsearch+json;compatible-with=8"

/-! ## Package `unfollow` -/

namespace unfollow

/-- The constant `indexMask = iota + 1`. -/
def indexMask : Nat := 0 + 1

/-- ErrBuildPath is returned in case of missing parameters within the build of
the request. -/
def ErrBuildPath : GoError := .new "cannot build path, check for missing path parameters"

/-- The type `Unfollow`. -/
structure Unfollow (σ : Type) where
  transport : Transport σ
  headers : Header
  values : Values
  path : URL
  buf : Bytes
  paramSet : Nat
  index : String

/-- The constructor `New`. -/
def New {σ : Type} (tp : Transport σ) : Unfollow σ :=
  { transport := tp, values := ⟨[]⟩, headers := ⟨[]⟩, buf := [], path := {}, paramSet := 0,
    index := "" }

namespace Unfollow

variable {σ : Type}

/-- Header set a key, value pair in the Unfollow headers map. -/
def Header (r : Unfollow σ) (key value : String) : Unfollow σ :=
  { r with headers := r.headers.Set key value }

/-- Index: the name of the follower index that should be turned into a regular
index. -/
def Index (r : Unfollow σ) (v : String) : Unfollow σ :=
  { r with paramSet := r.paramSet ||| indexMask, index := v }

/-- HttpRequest returns the http.Request object built from the given
parameters, and the receiver with its `path` filled in. -/
def HttpRequest (r : Unfollow σ) (ctx : Option Context) :
    Unfollow σ × Except GoError HttpReq :=
  let r := { r with path := { r.path with Scheme := "http" } }
  let (path, method) :=
    if r.paramSet = indexMask then
      ("" ++ "/" ++ PathEscape r.index ++ "/" ++ "_ccr" ++ "/" ++ "unfollow", "POST")
    else ("", "")
  let r := { r with path := { r.path with Path := path, RawQuery := r.values.Encode } }
  if r.path.Path = "" then (r, .error ErrBuildPath)
  else
    let built :=
      match ctx with
      | some c => NewRequestWithContext c method r.path r.buf
      | none => NewRequest method r.path r.buf
    match built with
    | .ok req => (r, .ok { req with Header := req.Header.Set "accept" mediaType })
    | .error err => (r, .error (.errorf "could not build http.Request: " err))

/-- Do runs the http.Request through the provided transport. The receiver is a
copy, so the caller's configuration is left as it was. -/
def Do (r : Unfollow σ) (ctx : Option Context) (w : σ) : Except GoError HttpResponse × σ :=
  match (r.HttpRequest ctx).2 with
  | .error err => (.error err, w)
  | .ok req =>
    match r.transport.Perform req w with
    | (.error err, w') =>
      (.error (.errorf "an error happened during the Unfollow query execution: " err), w')
    | (.ok res, w') => (.ok res, w')

/-- IsSuccess allows to run a query with a context and retrieve the result as
a boolean. -/
def IsSuccess (r : Unfollow σ) (ctx : Option Context) (w : σ) : IsSuccessResult σ :=
  match r.Do ctx w with
  | (.error err, w') => { ret := (false, some err), body := none, world := w' }
  | (.ok res, w') =>
    let body := res.Body.discard.1
    let (body, err) := body.Close
    match err with
    | some err => { ret := (false, some err), body := some body, world := w' }
    | none =>
      if res.StatusCode ≥ 200 ∧ res.StatusCode < 300 then
        { ret := (true, none), body := some body, world := w' }
      else { ret := (false, none), body := some body, world := w' }

end Unfollow

/-- NewUnfollowFunc returns a new instance of Unfollow with the provided
transport. -/
def NewUnfollowFunc {σ : Type} (tp : Transport σ) : String → Unfollow σ :=
  fun index => (New tp).Index index

/-- A call of one of the methods that change or read a configuration. -/
inductive Call where
  | Index (v : String)
  | Header (key value : String)
  | HttpRequest (ctx : Option Context)
  deriving DecidableEq, Repr

/-- Whether the call is a call of `Index`. -/
def Call.isIndex : Call → Bool
  | .Index _ => true
  | _ => false

/-- The configuration after one call. -/
def Call.apply {σ : Type} (r : Unfollow σ) : Call → Unfollow σ
  | .Index v => r.Index v
  | .Header key value => r.Header key value
  | .HttpRequest ctx => (r.HttpRequest ctx).1

/-- The configuration after a sequence of calls, first call first. -/
def run {σ : Type} (r : Unfollow σ) (cs : List Call) : Unfollow σ := cs.foldl Call.apply r

end unfollow

/-! ## Package `getpipeline` -/

namespace getpipeline

/-- The constant `idMask = iota + 1`. -/
def idMask : Nat := 0 + 1

/-- ErrBuildPath is returned in case of missing parameters within the build of
the request. -/
def ErrBuildPath : GoError := .new "cannot build path, check for missing path parameters"

/-- The type `GetPipeline`. -/
structure GetPipeline (σ : Type) where
  transport : Transport σ
  headers : Header
  values : Values
  path : URL
  buf : Bytes
  paramSet : Nat
  id : String

/-- The constructor `New`. -/
def New {σ : Type} (tp : Transport σ) : GetPipeline σ :=
  { transport := tp, values := ⟨[]⟩, headers := ⟨[]⟩, buf := [], path := {}, paramSet := 0,
    id := "" }

/-- NewGetPipelineFunc returns a new instance of GetPipeline with the provided
transport. -/
def NewGetPipelineFunc {σ : Type} (tp : Transport σ) : Unit → GetPipeline σ :=
  fun _ => New tp

/-- The function `strconv.FormatBool`. -/
def FormatBool (b : Bool) : String := if b then "true" else "false"

namespace GetPipeline

variable {σ : Type}

/-- Header set a key, value pair in the GetPipeline headers map. -/
def Header (r : GetPipeline σ) (key value : String) : GetPipeline σ :=
  { r with headers := r.headers.Set key value }

/-- Id: comma separated list of pipeline ids. Wildcards supported. -/
def Id (r : GetPipeline σ) (v : String) : GetPipeline σ :=
  { r with paramSet := r.paramSet ||| idMask, id := v }

/-- MasterTimeout: explicit operation timeout for connection to master node. -/
def MasterTimeout (r : GetPipeline σ) (value : String) : GetPipeline σ :=
  { r with values := r.values.Set "master_timeout" value }

/-- Summary: return pipelines without their definitions (default: false). -/
def Summary (r : GetPipeline σ) (b : Bool) : GetPipeline σ :=
  { r with values := r.values.Set "summary" (FormatBool b) }

/-- HttpRequest returns the http.Request object built from the given
parameters, and the receiver with its `path` filled in. -/
def HttpRequest (r : GetPipeline σ) (ctx : Option Context) :
    GetPipeline σ × Except GoError HttpReq :=
  let r := { r with path := { r.path with Scheme := "http" } }
  let (path, method) :=
    if r.paramSet = 0 then
      ("" ++ "/" ++ "_ingest" ++ "/" ++ "pipeline", "GET")
    else if r.paramSet = idMask then
      ("" ++ "/" ++ "_ingest" ++ "/" ++ "pipeline" ++ "/" ++ r.id, "GET")
    else ("", "")
  let r := { r with path := { r.path with Path := path, RawQuery := r.values.Encode } }
  if r.path.Path = "" then (r, .error ErrBuildPath)
  else
    let built :=
      match ctx with
      | some c => NewRequestWithContext c method r.path r.buf
      | none => NewRequest method r.path r.buf
    match built with
    | .ok req =>
      let req := { req with Header := r.headers.Clone }
      let req :=
        if req.Header.Get "Accept" = "" then
          { req with Header := req.Header.Set "Accept" mediaType }
        else req
      (r, .ok req)
    | .error err => (r, .error (.errorf "could not build http.Request: " err))

/-- Do runs the http.Request through the provided transport. The receiver is a
copy, so the caller's configuration is left as it was. -/
def Do (r : GetPipeline σ) (ctx : Option Context) (w : σ) : Except GoError HttpResponse × σ :=
  match (r.HttpRequest ctx).2 with
  | .error err => (.error err, w)
  | .ok req =>
    match r.transport.Perform req w with
    | (.error err, w') =>
      (.error (.errorf "an error happened during the GetPipeline query execution: " err), w')
    | (.ok res, w') => (.ok res, w')

/-- IsSuccess allows to run a query with a context and retrieve the result as
a boolean. -/
def IsSuccess (r : GetPipeline σ) (ctx : Option Context) (w : σ) : IsSuccessResult σ :=
  match r.Do ctx w with
  | (.error err, w') => { ret := (false, some err), body := none, world := w' }
  | (.ok res, w') =>
    let body := res.Body.discard.1
    let (body, err) := body.Close
    match err with
    | some err => { ret := (false, some err), body := some body, world := w' }
    | none =>
      if res.StatusCode ≥ 200 ∧ res.StatusCode < 300 then
        { ret := (true, none), body := some body, world := w' }
      else { ret := (false, none), body := some body, world := w' }

end GetPipeline

/-- A call of one of the methods that change or read a configuration. -/
inductive Call where
  | Id (v : String)
  | MasterTimeout (value : String)
  | Summary (b : Bool)
  | Header (key value : String)
  | HttpRequest (ctx : Option Context)
  deriving DecidableEq, Repr

/-- The configuration after one call. -/
def Call.apply {σ : Type} (r : GetPipeline σ) : Call → GetPipeline σ
  | .Id v => r.Id v
  | .MasterTimeout value => r.MasterTimeout value
  | .Summary b => r.Summary b
  | .Header key value => r.Header key value
  | .HttpRequest ctx => (r.HttpRequest ctx).1

/-- The configuration after a sequence of calls, first call first. -/
def run {σ : Type} (r : GetPipeline σ) (cs : List Call) : GetPipeline σ := cs.foldl Call.apply r

/-- Whether the call is a call of `Id`. -/
def Call.isId : Call → Bool
  | .Id _ => true
  | _ => false

/-- Whether the call sets a header whose canonical key is that of `key`. -/
def Call.setsHeader (key : String) : Call → Bool
  | .Header k _ => CanonicalMIMEHeaderKey k = CanonicalMIMEHeaderKey key
  | _ => false

/-- Whether some call of the sequence sets the header `key` through `Header`. -/
def callerSet (key : String) (cs : List Call) : Bool := cs.any (Call.setsHeader key)

/-- The value of the last `MasterTimeout` call of a sequence, if there is one. -/
def lastMasterTimeout : List Call → Option String
  | [] => none
  | c :: cs =>
    match lastMasterTimeout cs with
    | some v => some v
    | none =>
      match c with
      | .MasterTimeout v => some v
      | _ => none

/-- The value of the last `Summary` call of a sequence, if there is one. -/
def lastSummary : List Call → Option Bool
  | [] => none
  | c :: cs =>
    match lastSummary cs with
    | some b => some b
    | none =>
      match c with
      | .Summary b => some b
      | _ => none

/-- The `(key, value)` pairs of the query parameters, in the order of the keys,
from the value of each parameter if it is set. -/
def pairsOf (mt : Option String) (s : Option Bool) : List (String × String) :=
  (match mt with
    | some v => [("master_timeout", v)]
    | none => [])
  ++ (match s with
    | some b => [("summary", FormatBool b)]
    | none => [])

/-- The query parameters that a sequence of calls has accumulated, as
`(key, value)` pairs in the order of the keys. -/
def queryPairs (cs : List Call) : List (String × String) :=
  pairsOf (lastMasterTimeout cs) (lastSummary cs)

/-- The map that holds the given pairs, one value a key. -/
def entriesOf (pairs : List (String × String)) : StrMap := pairs.map fun kv => (kv.1, [kv.2])

end getpipeline

/-! ## Package `closepointintime`

The payload type `Request` of the package is declared outside the files at
hand; it is the parameter `Req`, and `json.Marshal` on it is the parameter
`marshal`, which returns the serialisation or an error. -/

namespace closepointintime

/-- ErrBuildPath is returned in case of missing parameters within the build of
the request. -/
def ErrBuildPath : GoError := .new "cannot build path, check for missing path parameters"

/-- The type `ClosePointInTime`. -/
structure ClosePointInTime (Req σ : Type) where
  transport : Transport σ
  headers : Header
  values : Values
  path : URL
  buf : Bytes
  req : Option Req
  raw : Option Bytes
  paramSet : Nat

/-- The constructor `New`. -/
def New {Req σ : Type} (tp : Transport σ) : ClosePointInTime Req σ :=
  { transport := tp, values := ⟨[]⟩, headers := ⟨[]⟩, buf := [], path := {}, req := none,
    raw := none, paramSet := 0 }

/-- NewClosePointInTimeFunc returns a new instance of ClosePointInTime with the
provided transport. -/
def NewClosePointInTimeFunc {Req σ : Type} (tp : Transport σ) : Unit → ClosePointInTime Req σ :=
  fun _ => New tp

namespace ClosePointInTime

variable {Req σ : Type}

/-- Raw takes a json payload as input which is then passed to the http.Request.
If specified Raw takes precedence on Request method. -/
def Raw (r : ClosePointInTime Req σ) (raw : Option Bytes) : ClosePointInTime Req σ :=
  { r with raw := raw }

/-- Request allows to set the request property with the appropriate payload. -/
def Request (r : ClosePointInTime Req σ) (req : Option Req) : ClosePointInTime Req σ :=
  { r with req := req }

/-- Header set a key, value pair in the ClosePointInTime headers map. -/
def Header (r : ClosePointInTime Req σ) (key value : String) : ClosePointInTime Req σ :=
  { r with headers := r.headers.Set key value }

/-- The first statement of `HttpRequest`: the body is written to `r.buf`. The
result is the receiver after the write, or the serialisation error. -/
def writeBody (marshal : Req → Except GoError Bytes) (r : ClosePointInTime Req σ) :
    Except GoError (ClosePointInTime Req σ) :=
  match r.raw with
  | some raw => .ok { r with buf := r.buf ++ raw }
  | none =>
    match r.req with
    | some req =>
      match marshal req with
      | .error err => .error (.errorf "could not serialise request for ClosePointInTime: " err)
      | .ok data => .ok { r with buf := r.buf ++ data }
    | none => .ok r

/-- HttpRequest returns the http.Request object built from the given
parameters, and the receiver with `buf` and `path` filled in. -/
def HttpRequest (marshal : Req → Except GoError Bytes) (r : ClosePointInTime Req σ)
    (ctx : Option Context) : ClosePointInTime Req σ × Except GoError HttpReq :=
  match writeBody marshal r with
  | .error err => (r, .error err)
  | .ok r =>
    let r := { r with path := { r.path with Scheme := "http" } }
    let (path, method) :=
      if r.paramSet = 0 then ("" ++ "/" ++ "_pit", "DELETE")
      else ("", "")
    let r := { r with path := { r.path with Path := path, RawQuery := r.values.Encode } }
    if r.path.Path = "" then (r, .error ErrBuildPath)
    else
      let built :=
        match ctx with
        | some c => NewRequestWithContext c method r.path r.buf
        | none => NewRequest method r.path r.buf
      match built with
      | .ok req =>
        let req := { req with Header := r.headers.Clone }
        let req :=
          if req.Header.Get "Content-Type" = "" then
            if r.buf.length > 0 then
              { req with Header := req.Header.Set "Content-Type" mediaType }
            else req
          else req
        let req :=
          if req.Header.Get "Accept" = "" then
            { req with Header := req.Header.Set "Accept" mediaType }
          else req
        (r, .ok req)
      | .error err => (r, .error (.errorf "could not build http.Request: " err))

/-- Do runs the http.Request through the provided transport. The receiver is a
copy that shares the buffer `buf` with the caller's configuration: the result
holds the caller's configuration after the call, with only `buf` changed. -/
def Do (marshal : Req → Except GoError Bytes) (r : ClosePointInTime Req σ)
    (ctx : Option Context) (w : σ) :
    ClosePointInTime Req σ × Except GoError HttpResponse × σ :=
  let built := r.HttpRequest marshal ctx
  let r := { r with buf := built.1.buf }
  match built.2 with
  | .error err => (r, .error err, w)
  | .ok req =>
    match r.transport.Perform req w with
    | (.error err, w') =>
      (r, .error (.errorf "an error happened during the ClosePointInTime query execution: " err),
        w')
    | (.ok res, w') => (r, .ok res, w')

end ClosePointInTime

/-- A call of one of the methods that change or read a configuration. -/
inductive Call (Req : Type) where
  | Raw (raw : Option Bytes)
  | Request (req : Option Req)
  | Header (key value : String)
  | HttpRequest (ctx : Option Context)

/-- Whether the call sets a header whose canonical key is that of `key`. -/
def Call.setsHeader {Req : Type} (key : String) : Call Req → Bool
  | .Header k _ => CanonicalMIMEHeaderKey k = CanonicalMIMEHeaderKey key
  | _ => false

/-- The configuration after one call. -/
def Call.apply {Req σ : Type} (marshal : Req → Except GoError Bytes)
    (r : ClosePointInTime Req σ) : Call Req → ClosePointInTime Req σ
  | .Raw raw => r.Raw raw
  | .Request req => r.Request req
  | .Header key value => r.Header key value
  | .HttpRequest ctx => (r.HttpRequest marshal ctx).1

/-- The configuration after a sequence of calls, first call first. -/
def run {Req σ : Type} (marshal : Req → Except GoError Bytes) (r : ClosePointInTime Req σ)
    (cs : List (Call Req)) : ClosePointInTime Req σ :=
  cs.foldl (Call.apply marshal) r

/-- Whether some call of the sequence sets the header `key` through `Header`. -/
def callerSet {Req : Type} (key : String) (cs : List (Call Req)) : Bool :=
  cs.any (Call.setsHeader key)

/-- The two header steps of `HttpRequest` as one function of the caller's
headers and the resolved body: the headers the built request carries. -/
def negotiate (h : Header) (body : Bytes) : Header :=
  let h1 :=
    if h.Get "Content-Type" = "" then
      if body.length > 0 then h.Set "Content-Type" mediaType else h
    else h
  if h1.Get "Accept" = "" then h1.Set "Accept" mediaType else h1

end closepointintime

/-! ## `encoding/json`

A reader for JSON documents as `json.Unmarshal` accepts them. The text of a
syntax error is not modelled: every malformed document gives `syntaxError`. -/

/-- A JSON value as `encoding/json` reads it; a number keeps its text. -/
inductive JSON where
  | null
  | bool (b : Bool)
  | number (text : String)
  | string (s : String)
  | array (items : List JSON)
  | object (members : List (String × JSON))
  deriving Repr

/-- The double quote. -/
def dquote : Char := Char.ofNat 34

/-- The backslash. -/
def bslash : Char := Char.ofNat 92

/-- The function `isSpace` of the scanner: space, tab, carriage return, line feed. -/
def isSpace (c : Char) : Bool := c = ' ' ∨ c = '\t' ∨ c = '\r' ∨ c = '\n'

/-- Skips the white space at the head of the input. -/
def skipSpace : List Char → List Char
  | [] => []
  | c :: cs => if isSpace c then skipSpace cs else c :: cs

/-- Value of a hexadecimal digit. -/
def hexVal (c : Char) : Option Nat :=
  if '0'.toNat ≤ c.toNat ∧ c.toNat ≤ '9'.toNat then some (c.toNat - '0'.toNat)
  else if 'a'.toNat ≤ c.toNat ∧ c.toNat ≤ 'f'.toNat then some (c.toNat - 'a'.toNat + 10)
  else if 'A'.toNat ≤ c.toNat ∧ c.toNat ≤ 'F'.toNat then some (c.toNat - 'A'.toNat + 10)
  else none

/-- The function `getu4`: the code unit of four hexadecimal digits. -/
def getu4 (a b c d : Char) : Option Nat :=
  match hexVal a, hexVal b, hexVal c, hexVal d with
  | some x, some y, some z, some t => some (((x * 16 + y) * 16 + z) * 16 + t)
  | _, _, _, _ => none

/-- The character of a one-letter escape. -/
def unescapeChar (c : Char) : Option Char :=
  if c = dquote then some dquote
  else if c = bslash then some bslash
  else if c = '/' then some '/'
  else if c = 'b' then some (Char.ofNat 8)
  else if c = 'f' then some (Char.ofNat 12)
  else if c = 'n' then some '\n'
  else if c = 'r' then some '\r'
  else if c = 't' then some '\t'
  else none

/-- Reads a string literal after its opening quote: the code points of the
text, in reverse in `acc`, and the rest of the input after the closing quote.
An escape `\uXXXX` gives its code unit, which may be a surrogate half. -/
def readString : List Char → List Nat → Option (List Nat × List Char)
  | [], _ => none
  | c :: cs, acc =>
    if c = dquote then some (acc.reverse, cs)
    else if c = bslash then
      match cs with
      | [] => none
      | e :: es =>
        if e = 'u' then
          match es with
          | a :: b :: c1 :: d :: rest =>
            match getu4 a b c1 d with
            | none => none
            | some u => readString rest (u :: acc)
          | _ => none
        else
          match unescapeChar e with
          | some ch => readString es (ch.toNat :: acc)
          | none => none
    else if c.toNat < 0x20 then none
    else readString cs (c.toNat :: acc)

/-- Joins the surrogate pairs of a sequence of code units; a surrogate half
that is not part of a pair becomes U+FFFD. -/
def joinSurrogates : List Nat → List Char
  | [] => []
  | [u] => [if 0xD800 ≤ u ∧ u < 0xE000 then Char.ofNat 0xFFFD else Char.ofNat u]
  | u :: l :: rest =>
    if 0xD800 ≤ u ∧ u < 0xDC00 ∧ 0xDC00 ≤ l ∧ l < 0xE000 then
      Char.ofNat (0x10000 + (u - 0xD800) * 0x400 + (l - 0xDC00)) :: joinSurrogates rest
    else if 0xD800 ≤ u ∧ u < 0xE000 then Char.ofNat 0xFFFD :: joinSurrogates (l :: rest)
    else Char.ofNat u :: joinSurrogates (l :: rest)

/-- A decimal digit. -/
def isDigit (c : Char) : Bool := '0'.toNat ≤ c.toNat ∧ c.toNat ≤ '9'.toNat

/-- The characters a number is made of. -/
def isNumberChar (c : Char) : Bool :=
  isDigit c ∨ c = '-' ∨ c = '+' ∨ c = '.' ∨ c = 'e' ∨ c = 'E'

/-- Drops the digits at the head of the input. -/
def dropDigits : List Char → List Char
  | [] => []
  | c :: cs => if isDigit c then dropDigits cs else c :: cs

/-- The exponent part of a number, or nothing. -/
def validExponent (cs : List Char) : Bool :=
  match cs with
  | [] => true
  | e :: rest =>
    if e = 'e' ∨ e = 'E' then
      let rest := match rest with
        | s :: rest' => if s = '+' ∨ s = '-' then rest' else s :: rest'
        | [] => []
      match rest with
      | d :: ds => isDigit d && dropDigits ds == []
      | [] => false
    else false

/-- The fraction and exponent parts of a number, or nothing. -/
def validFraction (cs : List Char) : Bool :=
  match cs with
  | c :: d :: ds =>
    if c = '.' then isDigit d && validExponent (dropDigits ds) else validExponent cs
  | _ => validExponent cs

/-- Whether the text is a JSON number:
`-? (0 | [1-9][0-9]*) (. [0-9]+)? ([eE] [+-]? [0-9]+)?`. -/
def validNumber (cs : List Char) : Bool :=
  let cs := match cs with
    | c :: rest => if c = '-' then rest else c :: rest
    | [] => []
  match cs with
  | [] => false
  | c :: rest =>
    if c = '0' then validFraction rest
    else if isDigit c then validFraction (dropDigits rest)
    else false

mutual

/-- Reads one JSON value at the head of the input (after white space). -/
def readValue : Nat → List Char → Option (JSON × List Char)
  | 0, _ => none
  | fuel + 1, cs =>
    match skipSpace cs with
    | [] => none
    | c :: rest =>
      if c = dquote then
        match readString rest [] with
        | some (s, rest) => some (.string ⟨joinSurrogates s⟩, rest)
        | none => none
      else if c = '{' then
        match skipSpace rest with
        | '}' :: rest => some (.object [], rest)
        | rest => (readMembers fuel rest).map fun r => (.object r.1, r.2)
      else if c = '[' then
        match skipSpace rest with
        | ']' :: rest => some (.array [], rest)
        | rest => (readElements fuel rest).map fun r => (.array r.1, r.2)
      else if c = 't' then
        match rest with
        | 'r' :: 'u' :: 'e' :: rest => some (.bool true, rest)
        | _ => none
      else if c = 'f' then
        match rest with
        | 'a' :: 'l' :: 's' :: 'e' :: rest => some (.bool false, rest)
        | _ => none
      else if c = 'n' then
        match rest with
        | 'u' :: 'l' :: 'l' :: rest => some (.null, rest)
        | _ => none
      else
        let text := (c :: rest).takeWhile isNumberChar
        if validNumber text then some (.number ⟨text⟩, (c :: rest).dropWhile isNumberChar)
        else none

/-- Reads the elements of a non-empty array up to its closing bracket. -/
def readElements : Nat → List Char → Option (List JSON × List Char)
  | 0, _ => none
  | fuel + 1, cs =>
    match readValue fuel cs with
    | none => none
    | some (v, rest) =>
      match skipSpace rest with
      | ']' :: rest => some ([v], rest)
      | ',' :: rest => (readElements fuel rest).map fun r => (v :: r.1, r.2)
      | _ => none

/-- Reads the members of a non-empty object up to its closing brace. -/
def readMembers : Nat → List Char → Option (List (String × JSON) × List Char)
  | 0, _ => none
  | fuel + 1, cs =>
    match skipSpace cs with
    | [] => none
    | q :: rest =>
      if q = dquote then
        match readString rest [] with
        | none => none
        | some (k, rest) =>
          match skipSpace rest with
          | ':' :: rest =>
            match readValue fuel rest with
            | none => none
            | some (v, rest) =>
              match skipSpace rest with
              | '}' :: rest => some ([(⟨joinSurrogates k⟩, v)], rest)
              | ',' :: rest =>
                (readMembers fuel rest).map fun r => ((⟨joinSurrogates k⟩, v) :: r.1, r.2)
              | _ => none
          | _ => none
      else none

end

/-- Reads a whole document: one value, and white space only after it. The
fuel bounds the number of nested values and of members, which the length of
the input bounds. -/
def readDocument (data : String) : Option JSON :=
  match readValue (2 * data.length + 2) data.data with
  | some (v, rest) => if skipSpace rest = [] then some v else none
  | none => none


/-- The error of `json.Unmarshal` on a malformed document. -/
def syntaxError : GoError := .new "json: syntax error"

/-- The name `encoding/json` gives the kind of a value in a type error. -/
def JSON.kind : JSON → String
  | .null => "null"
  | .bool _ => "bool"
  | .number _ => "number"
  | .string _ => "string"
  | .array _ => "array"
  | .object _ => "object"

/-- One rune of `foldName`: the least rune of the case-folding orbit, for the
runes whose orbit holds an ASCII letter (the letters themselves, the Kelvin
sign U+212A and the long s U+017F). Any other rune stands for itself here: its
fold is not an ASCII letter either. -/
def foldRune (c : Char) : Char :=
  if 'a'.toNat ≤ c.toNat ∧ c.toNat ≤ 'z'.toNat then Char.ofNat (c.toNat - 32)
  else if c.toNat = 0x212A then 'K'
  else if c.toNat = 0x017F then 'S'
  else c

/-- The function `foldName`, under which member names are compared when no
field has the exact name. -/
def foldName (s : String) : List Char := s.data.map foldRune

/-! ## Package `revertmodelsnapshot` -/

namespace revertmodelsnapshot

/-- Request holds the request body struct for the package revertmodelsnapshot.
The field is a `*bool` with the tag `json:"delete_intervening_results,omitempty"`. -/
structure Request where
  DeleteInterveningResults : Option Bool
  deriving DecidableEq, Repr

/-- NewRequest returns a Request. -/
def NewRequest : Request := { DeleteInterveningResults := none }

/-- The JSON name of the field `DeleteInterveningResults`. -/
def fieldName : String := "delete_intervening_results"

/-- The text `json.Marshal` gives for a `Request`: an object whose only member
is left out when the pointer is nil (`omitempty`), and is the boolean the
pointer points to otherwise. It cannot fail for this type. -/
def Marshal (r : Request) : String :=
  match r.DeleteInterveningResults with
  | none => "\x7b\x7d"
  | some b =>
    "\x7b" ++ String.mk [dquote] ++ fieldName ++ String.mk [dquote] ++ ":"
      ++ (if b then "true" else "false") ++ "\x7d"

/-- Decoding of one member value into the field: a boolean is stored, `null`
makes the pointer nil, any other value is a type error and leaves the field. -/
def decodeField (r : Request) : JSON → Request × Option GoError
  | .bool b => ({ r with DeleteInterveningResults := some b }, none)
  | .null => ({ r with DeleteInterveningResults := none }, none)
  | v =>
    (r, some (.new ("json: cannot unmarshal " ++ v.kind
      ++ " into Go struct field Request.delete_intervening_results of type bool")))

/-- Decoding of the members of an object in their order: a member whose name
is the field name, exactly or under `foldName`, is decoded into the field, any
other member is skipped; the first type error is kept. -/
def decodeMembers : Request → Option GoError → List (String × JSON) → Request × Option GoError
  | r, saved, [] => (r, saved)
  | r, saved, (k, v) :: rest =>
    if k = fieldName ∨ foldName k = foldName fieldName then
      let (r, err) := decodeField r v
      decodeMembers r (if saved.isSome then saved else err) rest
    else decodeMembers r saved rest

/-- The call `json.Unmarshal([]byte(data), &req)`: the value of `req` after the
call, and the error. -/
def Unmarshal (data : String) (req : Request) : Request × Option GoError :=
  match readDocument data with
  | none => (req, some syntaxError)
  | some (.object members) => decodeMembers req none members
  | some .null => (req, none)
  | some v =>
    (req, some (.new ("json: cannot unmarshal " ++ v.kind
      ++ " into Go value of type revertmodelsnapshot.Request")))

/-- FromJSON allows to load an arbitrary json into the request structure. The
receiver `rb` may be nil; it is not read. -/
def Request.FromJSON (_rb : Option Request) (data : String) : Except GoError Request :=
  let req : Request := { DeleteInterveningResults := none }
  match Unmarshal data req with
  | (_, some err) =>
    .error (.errorf "could not deserialise json into Revertmodelsnapshot request: " err)
  | (req, none) => .ok req

end revertmodelsnapshot

/-! ## `strings.ToLower` -/

/-- Lower case of an ASCII letter; any other character is left as it is. -/
def asciiLower (c : Char) : Char :=
  if 'A'.toNat ≤ c.toNat ∧ c.toNat ≤ 'Z'.toNat then Char.ofNat (c.toNat + ('a'.toNat - 'A'.toNat))
  else c

/-- The function `strings.ToLower`: every rune is mapped to its lower case.
On ASCII that is `asciiLower`; the table of `unicode.ToLower` for the runes
beyond ASCII is the parameter `unicodeLower`. -/
def ToLower (unicodeLower : Char → Char) (s : String) : String :=
  ⟨s.data.map fun c => if c.toNat < 128 then asciiLower c else unicodeLower c⟩

/-! ## Package `dfiindependencemeasure`

A `[]byte` text is a `String` here: the conversions between the two keep the
content. -/

namespace dfiindependencemeasure

/-- A text, as a Go `string` or `[]byte`. -/
abbrev Text := String

/-- The type `DFIIndependenceMeasure`. -/
structure DFIIndependenceMeasure where
  Name : String
  deriving DecidableEq, Repr

/-- The value `Standardized`. -/
def Standardized : DFIIndependenceMeasure := ⟨"standardized"⟩

/-- The value `Saturated`. -/
def Saturated : DFIIndependenceMeasure := ⟨"saturated"⟩

/-- The value `Chisquared`. -/
def Chisquared : DFIIndependenceMeasure := ⟨"chisquared"⟩

/-- The method `String`. -/
def DFIIndependenceMeasure.String (d : DFIIndependenceMeasure) : Text := d.Name

/-- The method `MarshalText`: the text and the error, which is always nil. -/
def DFIIndependenceMeasure.MarshalText (d : DFIIndependenceMeasure) : Text × Option GoError :=
  (d.String, none)

/-- The method `UnmarshalText`: the value of the receiver after the call and
the error, which is always nil. -/
def DFIIndependenceMeasure.UnmarshalText (unicodeLower : Char → Char)
    (_d : DFIIndependenceMeasure) (text : Text) : DFIIndependenceMeasure × Option GoError :=
  let d :=
    if ToLower unicodeLower text = "standardized" then Standardized
    else if ToLower unicodeLower text = "saturated" then Saturated
    else if ToLower unicodeLower text = "chisquared" then Chisquared
    else ⟨text⟩
  (d, none)

end dfiindependencemeasure

/-! ## Package `types`: constructors of discriminated types

The enumeration types and the interface `Property` that the fields mention are
declared outside the files at hand; they are type parameters. A pointer, a
slice and a map are an `Option`, `none` being nil. The field `Type` of the
source is `Type_`, as `Type` is a keyword. -/

namespace types

/-- StandardAnalyzer type. -/
structure StandardAnalyzer where
  MaxTokenLength : Option Int
  Stopwords : Option (List String)
  Type_ : String
  deriving DecidableEq, Repr

/-- NewStandardAnalyzer returns a StandardAnalyzer. -/
def NewStandardAnalyzer : StandardAnalyzer :=
  let r : StandardAnalyzer := { MaxTokenLength := none, Stopwords := none, Type_ := "" }
  { r with Type_ := "standard" }

/-- PatternTokenizer type. -/
structure PatternTokenizer where
  Flags : String
  Group : Int
  Pattern : String
  Type_ : String
  Version : Option String
  deriving DecidableEq, Repr

/-- NewPatternTokenizer returns a PatternTokenizer. -/
def NewPatternTokenizer : PatternTokenizer :=
  let r : PatternTokenizer := { Flags := "", Group := 0, Pattern := "", Type_ := "", Version := none }
  { r with Type_ := "pattern" }

/-- IcuNormalizationCharFilter type. -/
structure IcuNormalizationCharFilter (IcuNormalizationMode IcuNormalizationType : Type) where
  Mode : Option IcuNormalizationMode
  Name : Option IcuNormalizationType
  Type_ : String
  Version : Option String
  deriving DecidableEq, Repr

/-- NewIcuNormalizationCharFilter returns a IcuNormalizationCharFilter. -/
def NewIcuNormalizationCharFilter {IcuNormalizationMode IcuNormalizationType : Type} :
    IcuNormalizationCharFilter IcuNormalizationMode IcuNormalizationType :=
  let r : IcuNormalizationCharFilter IcuNormalizationMode IcuNormalizationType :=
    { Mode := none, Name := none, Type_ := "", Version := none }
  { r with Type_ := "icu_normalizer" }

/-- ShapeProperty type. -/
structure ShapeProperty (DynamicMapping GeoOrientation Property : Type) where
  Coerce : Option Bool
  CopyTo : Option (List String)
  DocValues : Option Bool
  Dynamic : Option DynamicMapping
  Fields : Option (List (String × Property))
  IgnoreAbove : Option Int
  IgnoreMalformed : Option Bool
  IgnoreZValue : Option Bool
  Meta : Option (List (String × String))
  Orientation : Option GeoOrientation
  Properties : Option (List (String × Property))
  Similarity : Option String
  Store : Option Bool
  Type_ : String

/-- NewShapeProperty returns a ShapeProperty. -/
def NewShapeProperty {DynamicMapping GeoOrientation Property : Type} :
    ShapeProperty DynamicMapping GeoOrientation Property :=
  let r : ShapeProperty DynamicMapping GeoOrientation Property :=
    { Coerce := none, CopyTo := none, DocValues := none, Dynamic := none, Fields := some [],
      IgnoreAbove := none, IgnoreMalformed := none, IgnoreZValue := none, Meta := some [],
      Orientation := none, Properties := some [], Similarity := none, Store := none, Type_ := "" }
  { r with Type_ := "shape" }

end types

/-! ## `net/url`: unescaping -/

/-- The characters that `url.QueryEscape` writes: the unreserved characters
(letters, digits, `-`, `_`, `.`, `~`), `%` at the head of an escape and `+` for
a space. -/
def queryComponentChar (ch : Char) : Bool :=
  (byteOf 'a' ≤ ch.toNat ∧ ch.toNat ≤ byteOf 'z') ∨ (byteOf 'A' ≤ ch.toNat ∧ ch.toNat ≤ byteOf 'Z')
    ∨ (byteOf '0' ≤ ch.toNat ∧ ch.toNat ≤ byteOf '9')
    ∨ ch = '-' ∨ ch = '_' ∨ ch = '.' ∨ ch = '~' ∨ ch = '%' ∨ ch = '+'

/-- The function `unescape` of `net/url` in the mode `encodeQueryComponent`, on
the characters of the text: `%` with two hexadecimal digits gives the byte
`unhex(a)<<4 | unhex(b)`, `+` gives a space, any other character stands for
itself. The result is the bytes written; `none` is the `EscapeError` for a `%`
that two hexadecimal digits do not follow. -/
def unescapeQuery : List Char → Option (List Nat)
  | [] => some []
  | c :: cs =>
    if c = '%' then
      match cs with
      | a :: b :: rest =>
        match hexVal a, hexVal b with
        | some x, some y => (unescapeQuery rest).map fun t => (x <<< 4 ||| y) :: t
        | _, _ => none
      | _ => none
    else if c = '+' then (unescapeQuery cs).map fun t => byteOf ' ' :: t
    else (unescapeQuery cs).map fun t => (String.utf8EncodeChar c).map UInt8.toNat ++ t

/-- The function `url.QueryUnescape`: the bytes of the unescaped text, or
`none` for a malformed escape. -/
def QueryUnescape (s : String) : Option (List Nat) := unescapeQuery s.data

/-! ## Sample inputs -/

deriving instance DecidableEq for Except

/-- A transport that answers every request with the same result. -/
def constTransport (res : Except GoError HttpResponse) : Transport Unit :=
  ⟨fun _ w => (res, w)⟩

/-- A response with the given status code and body bytes. -/
def sampleResponse (status : Int) (data : Bytes) : HttpResponse :=
  { StatusCode := status, Body := { data := data } }

/-- A transport error. -/
def connectionRefused : GoError := .new "dial tcp: connection refused"

/-- A response whose body breaks off: one byte, then a read error. -/
def truncatedResponse (status : Int) : HttpResponse :=
  { StatusCode := status, Body := { data := [1], readErr := some (.new "unexpected EOF") } }

/-- A serialiser for payloads that are natural numbers: zero cannot be
serialised, any other number is one byte. -/
def sampleMarshal : Nat → Except GoError Bytes
  | 0 => .error (.new "json: unsupported value")
  | n + 1 => .ok [UInt8.ofNat n]

/-! ## Lemmas: strings, escaping, maps -/

theorem slash_append_ne_empty (s : String) : "/" ++ s ≠ "" := by
  intro h
  have := congrArg String.length h
  simp at this
  exact absurd this.1 (by decide)

theorem append_ne_empty (a b : String) (h : a ≠ "") : a ++ b ≠ "" := by
  intro e
  apply h
  have := congrArg String.length e
  simp at this
  exact String.ext (by simpa using List.length_eq_zero.mp this.1)

theorem shouldEscape_of_ge (c : Nat) (mode : encoding) (h : 128 ≤ c) :
    shouldEscape c mode = true := by
  unfold shouldEscape
  simp only [byteOf, Char.reduceToNat]
  rw [if_neg (by omega), if_neg (by omega), if_neg (by omega)]

set_option maxRecDepth 100000 in
theorem unescaped_segment_byte : ∀ c, c < 128 → shouldEscape c .encodePathSegment = false →
    Char.ofNat c ≠ '/' ∧ Char.ofNat c ≠ '?' ∧ Char.ofNat c ≠ '#' := by
  decide

theorem upperhex_getD_mem (n : Nat) : upperhex.getD n '0' ∈ upperhex := by
  by_cases h : n < 16
  · interval_cases n <;> decide
  · have : upperhex.length ≤ n := by simpa [upperhex] using Nat.le_of_not_lt h
    rw [List.getD_eq_default _ _ this]; decide

theorem escapeByte_segment (c : Nat) (ch : Char) (h : ch ∈ escapeByte .encodePathSegment c) :
    ch ≠ '/' ∧ ch ≠ '?' ∧ ch ≠ '#' := by
  unfold escapeByte at h
  simp only [reduceCtorEq, and_false, if_false] at h
  split at h
  · simp only [List.mem_cons, List.mem_singleton, List.mem_nil_iff, or_false] at h
    have key : ∀ x ∈ upperhex, x ≠ '/' ∧ x ≠ '?' ∧ x ≠ '#' := by decide
    rcases h with h | h | h
    · subst h; decide
    · rw [h]; exact key _ (upperhex_getD_mem _)
    · rw [h]; exact key _ (upperhex_getD_mem _)
  · rename_i hs
    simp only [List.mem_singleton] at h
    subst h
    have hlt : c < 128 := by
      by_contra hc
      exact hs (shouldEscape_of_ge c _ (by omega))
    exact unescaped_segment_byte c hlt (by simpa using hs)

/-- The output of `PathEscape` holds no path, query or fragment separator. -/
theorem PathEscape_no_separator (s : String) (ch : Char) (h : ch ∈ (PathEscape s).data) :
    ch ≠ '/' ∧ ch ≠ '?' ∧ ch ≠ '#' := by
  simp only [PathEscape, escape, List.mem_flatMap] at h
  obtain ⟨c, _, hc⟩ := h
  exact escapeByte_segment c ch hc

theorem slashCount_append (a b : String) : slashCount (a ++ b) = slashCount a + slashCount b := by
  simp [slashCount, String.data_append, List.count_append]

theorem slashCount_PathEscape (s : String) : slashCount (PathEscape s) = 0 := by
  unfold slashCount
  rw [List.count_eq_zero]
  intro h
  exact (PathEscape_no_separator s '/' h).1 rfl

/-! ## Lemmas: query escaping -/

theorem hexVal_upperhex : ∀ n, n < 16 → hexVal (upperhex.getD n '0') = some n := by
  decide

set_option maxRecDepth 100000 in
theorem unhex_join : ∀ c, c < 256 → ((c >>> 4) <<< 4 ||| (c &&& 15)) = c := by
  decide

set_option maxRecDepth 100000 in
theorem unescaped_query_byte : ∀ c, c < 128 → shouldEscape c .encodeQueryComponent = false →
    Char.ofNat c ≠ '%' ∧ Char.ofNat c ≠ '+'
      ∧ (String.utf8EncodeChar (Char.ofNat c)).map UInt8.toNat = [c]
      ∧ queryComponentChar (Char.ofNat c) = true := by
  decide

theorem escapeByte_query (c : Nat) (ch : Char) (h : ch ∈ escapeByte .encodeQueryComponent c) :
    queryComponentChar ch = true := by
  unfold escapeByte at h
  split at h
  · simp only [List.mem_singleton] at h
    subst h; decide
  · split at h
    · simp only [List.mem_cons, List.mem_singleton, List.mem_nil_iff, or_false] at h
      have key : ∀ x ∈ upperhex, queryComponentChar x = true := by decide
      rcases h with h | h | h
      · subst h; decide
      · rw [h]; exact key _ (upperhex_getD_mem _)
      · rw [h]; exact key _ (upperhex_getD_mem _)
    · rename_i hs
      simp only [List.mem_singleton] at h
      subst h
      have hlt : c < 128 := by
        by_contra hc
        exact hs (shouldEscape_of_ge c _ (by omega))
      exact (unescaped_query_byte c hlt (by simpa using hs)).2.2.2

/-- The output of `QueryEscape` holds unreserved characters, `%` and `+` only. -/
theorem QueryEscape_chars (s : String) (ch : Char) (h : ch ∈ (QueryEscape s).data) :
    queryComponentChar ch = true := by
  simp only [QueryEscape, escape, List.mem_flatMap] at h
  obtain ⟨c, _, hc⟩ := h
  exact escapeByte_query c ch hc

/-- The output of `QueryEscape` holds none of the separators of a query string
or of a URL. -/
theorem QueryEscape_no_separator (s : String) (ch : Char) (h : ch ∈ (QueryEscape s).data) :
    ch ≠ '&' ∧ ch ≠ '=' ∧ ch ≠ ';' ∧ ch ≠ '#' ∧ ch ≠ '?' ∧ ch ≠ '/' ∧ ch ≠ ' ' := by
  have hq := QueryEscape_chars s ch h
  refine ⟨?_, ?_, ?_, ?_, ?_, ?_, ?_⟩ <;> (intro he; subst he; revert hq; decide)

theorem unescapeQuery_plus (cs : List Char) :
    unescapeQuery ('+' :: cs) = (unescapeQuery cs).map fun t => byteOf ' ' :: t := by
  have e1 : ¬ '+' = '%' := by decide
  conv_lhs => rw [unescapeQuery.eq_def]
  simp only [if_neg e1, if_true]

theorem unescapeQuery_percent (a b : Char) (rest : List Char) :
    unescapeQuery ('%' :: a :: b :: rest)
      = match hexVal a, hexVal b with
        | some x, some y => (unescapeQuery rest).map fun t => (x <<< 4 ||| y) :: t
        | _, _ => none := by
  conv_lhs => rw [unescapeQuery.eq_def]
  simp only [if_true]

theorem unescapeQuery_literal (c : Char) (cs : List Char) (h1 : c ≠ '%') (h2 : c ≠ '+') :
    unescapeQuery (c :: cs)
      = (unescapeQuery cs).map fun t => (String.utf8EncodeChar c).map UInt8.toNat ++ t := by
  conv_lhs => rw [unescapeQuery.eq_def]
  simp only [if_neg h1, if_neg h2]

/-- Unescaping the characters written for one byte gives the byte back. -/
theorem unescapeQuery_escapeByte (c : Nat) (h : c < 256) (rest : List Char) :
    unescapeQuery (escapeByte .encodeQueryComponent c ++ rest)
      = (unescapeQuery rest).map fun t => c :: t := by
  unfold escapeByte
  by_cases hsp : c = byteOf ' '
  · subst hsp
    rw [if_pos ⟨rfl, rfl⟩, List.singleton_append, unescapeQuery_plus]
  · rw [if_neg (by simp [hsp])]
    by_cases hs : shouldEscape c .encodeQueryComponent = true
    · rw [if_pos hs]
      have h1 : c >>> 4 < 16 := by
        rw [Nat.shiftRight_eq_div_pow]; omega
      have h2 : c &&& 15 < 16 := Nat.lt_succ_of_le Nat.and_le_right
      rw [List.cons_append, List.cons_append, List.singleton_append, unescapeQuery_percent]
      simp only [hexVal_upperhex _ h1, hexVal_upperhex _ h2, unhex_join c h]
    · rw [if_neg hs]
      have hlt : c < 128 := by
        by_contra hc
        exact hs (shouldEscape_of_ge c _ (by omega))
      obtain ⟨e1, e2, e3, _⟩ := unescaped_query_byte c hlt (by simpa using hs)
      rw [List.singleton_append, unescapeQuery_literal _ _ e1 e2, e3]
      rfl

theorem unescapeQuery_escape (bs : List Nat) (h : ∀ b ∈ bs, b < 256) :
    unescapeQuery (bs.flatMap (escapeByte .encodeQueryComponent)) = some bs := by
  induction bs with
  | nil => rfl
  | cons b bs ih =>
    rw [List.flatMap_cons, unescapeQuery_escapeByte b (h b (List.mem_cons_self _ _)),
      ih fun x hx => h x (List.mem_cons_of_mem _ hx)]
    rfl

theorem utf8Bytes_lt (s : String) : ∀ b ∈ utf8Bytes s, b < 256 := by
  intro b hb
  simp only [utf8Bytes, List.mem_flatMap, List.mem_map] at hb
  obtain ⟨_, _, u, _, rfl⟩ := hb
  exact u.toNat_lt

/-- Unescaping the output of `QueryEscape` gives the bytes of the text back. -/
theorem QueryUnescape_QueryEscape (s : String) :
    QueryUnescape (QueryEscape s) = some (utf8Bytes s) :=
  unescapeQuery_escape _ (utf8Bytes_lt s)

theorem count_QueryEscape (s : String) (ch : Char) (h : queryComponentChar ch = false) :
    (QueryEscape s).data.count ch = 0 := by
  rw [List.count_eq_zero]
  intro hm
  rw [QueryEscape_chars s ch hm] at h
  cases h

/-! ## Lemmas: package `unfollow` -/

namespace unfollow

variable {σ : Type}

theorem unfollow_path_literal (a : String) :
    "" ++ "/" ++ a ++ "/" ++ "_ccr" ++ "/" ++ "unfollow" = "/" ++ a ++ "/_ccr/unfollow" := by
  apply String.ext
  simp [String.data_append]

/-- What `HttpRequest` returns, by the presence flags. -/
theorem unfollow_HttpRequest_snd (r : Unfollow σ) (ctx : Option Context) :
    (r.HttpRequest ctx).2 =
      if r.paramSet = indexMask then
        .ok { Method := "POST",
              URL := { Scheme := "http", Path := "/" ++ PathEscape r.index ++ "/_ccr/unfollow",
                       RawQuery := r.values.Encode },
              Header := Header.Set ⟨[]⟩ "accept" mediaType,
              Body := r.buf, ctx := ctx.getD .background }
      else .error ErrBuildPath := by
  unfold Unfollow.HttpRequest
  by_cases h : r.paramSet = indexMask
  · simp only [h, if_true, unfollow_path_literal]
    rw [if_neg (append_ne_empty _ _ (slash_append_ne_empty _))]
    cases ctx <;> rfl
  · simp [h]

/-- The method `HttpRequest` changes nothing but the field `path` of its receiver. -/
theorem unfollow_HttpRequest_fst (r : Unfollow σ) (ctx : Option Context) :
    (r.HttpRequest ctx).1.paramSet = r.paramSet ∧ (r.HttpRequest ctx).1.index = r.index := by
  unfold Unfollow.HttpRequest
  by_cases h : r.paramSet = indexMask
  · simp only [h, if_true, unfollow_path_literal]
    rw [if_neg (append_ne_empty _ _ (slash_append_ne_empty _))]
    cases ctx <;> exact ⟨rfl, rfl⟩
  · simp [h]

theorem unfollow_run_append (r : Unfollow σ) (cs cs' : List Call) :
    run r (cs ++ cs') = run (run r cs) cs' := by
  simp [run, List.foldl_append]

theorem unfollow_run_cons (r : Unfollow σ) (c : Call) (cs : List Call) :
    run r (c :: cs) = run (Call.apply r c) cs := rfl

/-- Calls other than `Index` leave the presence flags and the index alone. -/
theorem unfollow_run_no_index (cs : List Call) (r : Unfollow σ) (h : ∀ c ∈ cs, c.isIndex = false) :
    (run r cs).paramSet = r.paramSet ∧ (run r cs).index = r.index := by
  induction cs generalizing r with
  | nil => exact ⟨rfl, rfl⟩
  | cons c cs ih =>
    rw [unfollow_run_cons]
    have hc := h c (List.mem_cons_self _ _)
    have ht := ih (Call.apply r c) (fun c' hc' => h c' (List.mem_cons_of_mem _ hc'))
    rw [ht.1, ht.2]
    cases c with
    | Index v => simp [Call.isIndex] at hc
    | Header key value => exact ⟨rfl, rfl⟩
    | HttpRequest ctx => exact unfollow_HttpRequest_fst r ctx

/-- The presence flags after any sequence of calls on a configuration whose
flags are `0` or `indexMask`. -/
theorem unfollow_run_paramSet (cs : List Call) (r : Unfollow σ)
    (h0 : r.paramSet = 0 ∨ r.paramSet = indexMask) :
    (run r cs).paramSet = if cs.any Call.isIndex then indexMask else r.paramSet := by
  induction cs generalizing r with
  | nil => rfl
  | cons c cs ih =>
    rw [unfollow_run_cons]
    cases c with
    | Index v =>
      have hp : (r.Index v).paramSet = indexMask := by
        rcases h0 with h | h <;> simp [Unfollow.Index, h, indexMask]
      rw [ih (Call.apply r (.Index v)) (Or.inr hp)]
      simp [Call.isIndex, Call.apply, hp]
    | Header key value =>
      rw [ih (Call.apply r (.Header key value)) h0]
      simp [Call.isIndex, Call.apply, Unfollow.Header]
    | HttpRequest ctx =>
      have hp := (unfollow_HttpRequest_fst r ctx).1
      rw [ih (Call.apply r (.HttpRequest ctx)) (by simpa [Call.apply, hp] using h0)]
      simp [Call.isIndex, Call.apply, hp]

end unfollow

/-! ## Lemmas: package `getpipeline` -/

namespace getpipeline

variable {σ : Type}

theorem getPipeline_path_literal : "" ++ "/" ++ "_ingest" ++ "/" ++ "pipeline" = "/_ingest/pipeline" := by
  decide

theorem getPipeline_path_literal_id (a : String) :
    "" ++ "/" ++ "_ingest" ++ "/" ++ "pipeline" ++ "/" ++ a = "/_ingest/pipeline/" ++ a := by
  apply String.ext
  simp [String.data_append]

/-- What `HttpRequest` returns, by the presence flags. -/
theorem getPipeline_HttpRequest_snd (r : GetPipeline σ) (ctx : Option Context) :
    (r.HttpRequest ctx).2 =
      if r.paramSet = 0 then
        .ok { Method := "GET",
              URL := { Scheme := "http", Path := "/_ingest/pipeline",
                       RawQuery := r.values.Encode },
              Header := if r.headers.Get "Accept" = "" then r.headers.Set "Accept" mediaType
                        else r.headers,
               Body := r.buf, ctx := ctx.getD .background }
      else if r.paramSet = idMask then
        .ok { Method := "GET",
              URL := { Scheme := "http", Path := "/_ingest/pipeline/" ++ r.id,
                       RawQuery := r.values.Encode },
              Header := if r.headers.Get "Accept" = "" then r.headers.Set "Accept" mediaType
                        else r.headers,
               Body := r.buf, ctx := ctx.getD .background }
      else .error ErrBuildPath := by
  unfold GetPipeline.HttpRequest
  by_cases h : r.paramSet = 0
  · simp only [h, if_true, getPipeline_path_literal]
    rw [if_neg (by decide)]
    cases ctx <;> simp only [NewRequest, NewRequestWithContext, Header.Clone] <;> split <;> rfl
  · by_cases h' : r.paramSet = idMask
    · have h1 : ¬ idMask = 0 := by decide
      simp only [h', h1, if_true, if_false, getPipeline_path_literal_id]
      rw [if_neg (append_ne_empty _ _ (by decide))]
      cases ctx <;> simp only [NewRequest, NewRequestWithContext, Header.Clone] <;> split <;> rfl
    · simp [h, h']

end getpipeline

/-! ## Lemmas: maps and headers -/

namespace StrMap

theorem get?_set (q k : String) (vs : List String) (m : StrMap) :
    get? q (set k vs m) = if q = k then some vs else get? q m := by
  induction m with
  | nil => simp [set, get?]
  | cons e rest ih =>
    obtain ⟨k', vs'⟩ := e
    unfold set
    by_cases h1 : k.data < k'.data
    · simp [h1, get?]
    · by_cases h2 : k = k'
      · subst h2
        simp only [h1, if_false, if_true, get?]
        by_cases hq : q = k <;> simp [hq]
      · simp only [h1, h2, if_false, get?, ih]
        by_cases hq : q = k
        · subst hq
          simp [h2]
        · simp [hq]

theorem has_set (q k : String) (vs : List String) (m : StrMap) :
    has (set k vs m) q = (decide (q = k) || has m q) := by
  unfold has
  rw [get?_set]
  by_cases hq : q = k <;> simp [hq]

end StrMap

namespace Header

theorem Has_Set (h : Header) (key k value : String) :
    (h.Set k value).Has key =
      (decide (CanonicalMIMEHeaderKey key = CanonicalMIMEHeaderKey k) || h.Has key) := by
  simp [Has, Set, StrMap.has_set]

theorem Get_Set (h : Header) (key value : String) : (h.Set key value).Get key = value := by
  simp [Get, Set, StrMap.get?_set]

/-- A header with a non-empty value is present. -/
theorem Has_of_Get_ne (h : Header) (key : String) (hne : h.Get key ≠ "") : h.Has key = true := by
  unfold Get at hne
  unfold Has StrMap.has
  cases hg : StrMap.get? (CanonicalMIMEHeaderKey key) h.entries with
  | none => simp [hg] at hne
  | some vs => rfl

end Header

/-! ## Lemmas: package `closepointintime` -/

namespace closepointintime

variable {Req σ : Type}

/-- The write of the body changes the buffer only. -/
theorem closePointInTime_writeBody_fields (marshal : Req → Except GoError Bytes) (r r1 : ClosePointInTime Req σ)
    (h : ClosePointInTime.writeBody marshal r = .ok r1) :
    r1.headers = r.headers ∧ r1.paramSet = r.paramSet ∧ r1.values = r.values
      ∧ r1.transport = r.transport := by
  unfold ClosePointInTime.writeBody at h
  split at h
  · cases h; exact ⟨rfl, rfl, rfl, rfl⟩
  · split at h
    · split at h
      · cases h
      · cases h; exact ⟨rfl, rfl, rfl, rfl⟩
    · cases h; exact ⟨rfl, rfl, rfl, rfl⟩

/-- A failed write of the body is the whole result of `HttpRequest`. -/
theorem closePointInTime_HttpRequest_of_writeBody_error (marshal : Req → Except GoError Bytes)
    (r : ClosePointInTime Req σ) (ctx : Option Context) (err : GoError)
    (h : ClosePointInTime.writeBody marshal r = .error err) :
    r.HttpRequest marshal ctx = (r, .error err) := by
  unfold ClosePointInTime.HttpRequest
  rw [h]

/-- What `HttpRequest` returns after a successful write of the body. -/
theorem closePointInTime_HttpRequest_of_writeBody (marshal : Req → Except GoError Bytes)
    (r r1 : ClosePointInTime Req σ) (ctx : Option Context)
    (h : ClosePointInTime.writeBody marshal r = .ok r1) :
    r.HttpRequest marshal ctx =
      if r1.paramSet = 0 then
        ({ r1 with path := { Scheme := "http", Path := "/_pit", RawQuery := r1.values.Encode } },
          .ok { Method := "DELETE",
                URL := { Scheme := "http", Path := "/_pit", RawQuery := r1.values.Encode },
                Header := negotiate r1.headers r1.buf, Body := r1.buf,
                ctx := ctx.getD .background })
      else
        ({ r1 with path := { Scheme := "http", Path := "", RawQuery := r1.values.Encode } },
          .error ErrBuildPath) := by
  unfold ClosePointInTime.HttpRequest
  rw [h]
  by_cases hp : r1.paramSet = 0
  · have e : "" ++ "/" ++ "_pit" = "/_pit" := by decide
    simp only [hp, if_true, e]
    rw [if_neg (by decide)]
    have hm : ¬ "DELETE" = "" := by decide
    cases ctx <;>
      simp only [NewRequest, NewRequestWithContext, Header.Clone, negotiate, hm, if_false] <;>
      split_ifs <;> rfl
  · simp [hp]

end closepointintime

namespace closepointintime

variable {Req σ : Type}

/-- The method `HttpRequest` leaves the headers of the caller as they are. -/
theorem closePointInTime_HttpRequest_fst_headers (marshal : Req → Except GoError Bytes)
    (r : ClosePointInTime Req σ) (ctx : Option Context) :
    (r.HttpRequest marshal ctx).1.headers = r.headers := by
  cases hw : ClosePointInTime.writeBody marshal r with
  | error err => rw [closePointInTime_HttpRequest_of_writeBody_error marshal r ctx err hw]
  | ok r1 =>
    rw [closePointInTime_HttpRequest_of_writeBody marshal r r1 ctx hw]
    split_ifs <;> exact (closePointInTime_writeBody_fields marshal r r1 hw).1

theorem closePointInTime_run_cons (marshal : Req → Except GoError Bytes) (r : ClosePointInTime Req σ)
    (c : Call Req) (cs : List (Call Req)) :
    run marshal r (c :: cs) = run marshal (Call.apply marshal r c) cs := rfl

/-- A header is present after a sequence of calls exactly when it was present
before or one of the calls set it. -/
theorem closePointInTime_run_headers_Has (marshal : Req → Except GoError Bytes) (key : String)
    (cs : List (Call Req)) (r : ClosePointInTime Req σ) :
    (run marshal r cs).headers.Has key = (r.headers.Has key || callerSet key cs) := by
  induction cs generalizing r with
  | nil => simp [run, callerSet]
  | cons c cs ih =>
    rw [closePointInTime_run_cons, ih]
    cases c with
    | Raw raw => simp [Call.apply, ClosePointInTime.Raw, callerSet, Call.setsHeader]
    | Request req => simp [Call.apply, ClosePointInTime.Request, callerSet, Call.setsHeader]
    | Header k v =>
      simp only [Call.apply, ClosePointInTime.Header, Header.Has_Set, callerSet, List.any_cons,
        Call.setsHeader]
      by_cases hk : CanonicalMIMEHeaderKey key = CanonicalMIMEHeaderKey k
      · simp [hk]
      · have hk' : ¬ CanonicalMIMEHeaderKey k = CanonicalMIMEHeaderKey key := fun e => hk e.symm
        simp [hk, hk']
    | HttpRequest ctx =>
      simp [Call.apply, closePointInTime_HttpRequest_fst_headers, callerSet, Call.setsHeader]

end closepointintime

/-! ## The claims -/

namespace getpipeline

/-- C1 (fails on the code): `GetPipeline.HttpRequest` writes the id into the
path as it is, without `url.PathEscape`. For the id `a/b` the resolved path is
`/_ingest/pipeline/a/b`, which has four segments, where the escaped form
`a%2Fb` would give `/_ingest/pipeline/a%2Fb` with three. -/
theorem getPipeline_id_inserted_unescaped :
    (((New (constTransport (.error connectionRefused))).Id "a/b").HttpRequest none).2 =
        .ok { Method := "GET",
              URL := { Scheme := "http", Path := "/_ingest/pipeline/a/b", RawQuery := "" },
              Header := ⟨[("Accept", [mediaType])]⟩, Body := [], ctx := .background }
      ∧ "/_ingest/pipeline/a/b" ≠ "/_ingest/pipeline/" ++ PathEscape "a/b"
      ∧ PathEscape "a/b" = "a%2Fb"
      ∧ slashCount "/_ingest/pipeline/a/b" = 4 := by
  refine ⟨by rfl, by decide, by decide, by decide⟩

end getpipeline

namespace unfollow

/-- C2: after `Index(v)` (whatever was called before it, and whatever calls
other than `Index` follow), `Unfollow.HttpRequest` resolves to method POST and
to the path `"/" ++ PathEscape v ++ "/_ccr/unfollow"`; the escaped value holds
no `/`, `?` or `#`, so the path has exactly three segments for every `v`. -/
theorem unfollow_index_resolves {σ : Type} (tp : Transport σ) (cs cs' : List Call)
    (v : String) (ctx : Option Context) (h : ∀ c ∈ cs', c.isIndex = false) :
    (((run (New tp) (cs ++ Call.Index v :: cs')).HttpRequest ctx).2.toOption.map
        fun q => (q.Method, q.URL.Path))
        = some ("POST", "/" ++ PathEscape v ++ "/_ccr/unfollow")
      ∧ (∀ ch ∈ (PathEscape v).data, ch ≠ '/' ∧ ch ≠ '?' ∧ ch ≠ '#')
      ∧ slashCount ("/" ++ PathEscape v ++ "/_ccr/unfollow") = 3 := by
  refine ⟨?_, fun ch hch => PathEscape_no_separator v ch hch, ?_⟩
  · have h0 : (New tp).paramSet = 0 ∨ (New tp).paramSet = indexMask := Or.inl rfl
    have hp := unfollow_run_paramSet cs (New tp) h0
    have hq : (run (New tp) cs).paramSet = 0 ∨ (run (New tp) cs).paramSet = indexMask := by
      rw [hp]; split_ifs
      · exact Or.inr rfl
      · exact Or.inl rfl
    have h1 : ((run (New tp) cs).Index v).paramSet = indexMask := by
      rcases hq with e | e <;> simp [Unfollow.Index, e, indexMask]
    have h2 := unfollow_run_no_index cs' ((run (New tp) cs).Index v) h
    rw [unfollow_run_append, unfollow_run_cons, unfollow_HttpRequest_snd]
    simp only [Call.apply, h2.1, h2.2, h1, if_true]
    rfl
  · rw [slashCount_append, slashCount_append, slashCount_PathEscape]
    decide

/-- Witness of C2: the index `logs/2024 #1?` between two `Header` calls. -/
theorem unfollow_index_resolves_witness :
    (∀ c ∈ [Call.Header "X-Opaque-Id" "7"], c.isIndex = false)
      ∧ ((((run (New (constTransport (.error connectionRefused)))
              ([Call.Header "Accept" "text/plain"] ++ Call.Index "logs/2024 #1?"
                :: [Call.Header "X-Opaque-Id" "7"])).HttpRequest none).2.toOption.map
            fun q => (q.Method, q.URL.Path))
          = some ("POST", "/" ++ PathEscape "logs/2024 #1?" ++ "/_ccr/unfollow")
        ∧ (∀ ch ∈ (PathEscape "logs/2024 #1?").data, ch ≠ '/' ∧ ch ≠ '?' ∧ ch ≠ '#')
        ∧ slashCount ("/" ++ PathEscape "logs/2024 #1?" ++ "/_ccr/unfollow") = 3) :=
  ⟨by decide, unfollow_index_resolves _ _ _ _ _ (by decide)⟩

end unfollow

namespace unfollow

/-- C3: `Unfollow.HttpRequest` fails with `ErrBuildPath`, returning no request,
if and only if `Index` was never called on the configuration, and it returns a
request if and only if `Index` was called; every configuration obtained from
`NewUnfollowFunc(tp)(index)`, whatever the index and whatever is called on it
afterwards, builds a request. -/
theorem unfollow_errBuildPath_iff {σ : Type} (tp : Transport σ) (cs cs' : List Call)
    (ctx : Option Context) (index : String) :
    (((run (New tp) cs).HttpRequest ctx).2 = .error ErrBuildPath ↔ ∀ c ∈ cs, c.isIndex = false)
      ∧ (((run (New tp) cs).HttpRequest ctx).2.toOption.isSome = true ↔ ∃ c ∈ cs, c.isIndex = true)
      ∧ ((run (NewUnfollowFunc tp index) cs').HttpRequest ctx).2 ≠ .error ErrBuildPath
      ∧ ((run (NewUnfollowFunc tp index) cs').HttpRequest ctx).2.toOption.isSome = true := by
  have hp := unfollow_run_paramSet cs (New tp) (Or.inl rfl)
  have hq : (run (NewUnfollowFunc tp index) cs').paramSet = indexMask := by
    have h1 : (NewUnfollowFunc tp index).paramSet = indexMask := by
      simp [NewUnfollowFunc, New, Unfollow.Index, indexMask]
    rw [unfollow_run_paramSet cs' (NewUnfollowFunc tp index) (Or.inr h1), h1]
    split_ifs <;> rfl
  have h01 : ¬ (0 : Nat) = indexMask := by decide
  refine ⟨?_, ?_, ?_, ?_⟩
  · rw [unfollow_HttpRequest_snd, hp]
    by_cases ha : cs.any Call.isIndex = true
    · have hb : ¬ ∀ c ∈ cs, c.isIndex = false := by
        simpa using ha
      simp [ha, hb]
    · have hb : ∀ c ∈ cs, c.isIndex = false := by
        simpa using ha
      have hn : (New tp).paramSet = 0 := rfl
      simp [ha, hn, h01]
      exact hb
  · rw [unfollow_HttpRequest_snd, hp]
    by_cases ha : cs.any Call.isIndex = true
    · have hb : ∃ c ∈ cs, c.isIndex = true := by
        simpa using ha
      simp [ha, hb, Except.toOption]
    · have hb : ¬ ∃ c ∈ cs, c.isIndex = true := by
        simpa using ha
      have hn : (New tp).paramSet = 0 := rfl
      simp [ha, hb, hn, h01, Except.toOption]
  · rw [unfollow_HttpRequest_snd, hq]
    simp
  · rw [unfollow_HttpRequest_snd, hq]
    simp [Except.toOption]

/-- C8: when path resolution fails (no `Index` call), `Do` returns
`ErrBuildPath` itself, not wrapped, and leaves the world of the transport as
it was; with a transport that counts its `Perform` calls the count is
unchanged. -/
theorem unfollow_do_without_index {σ : Type} (tp : Transport σ) (cs : List Call)
    (ctx : Option Context) (w : σ) (n : Nat) (h : ∀ c ∈ cs, c.isIndex = false) :
    ((run (New tp) cs).HttpRequest ctx).2 = .error ErrBuildPath
      ∧ (run (New tp) cs).Do ctx w = (.error ErrBuildPath, w)
      ∧ (run (New tp.counting) cs).Do ctx (w, n) = (.error ErrBuildPath, (w, n)) := by
  have key : ∀ {τ : Type} (t : Transport τ),
      ((run (New t) cs).HttpRequest ctx).2 = .error ErrBuildPath := by
    intro τ t
    rw [unfollow_HttpRequest_snd, (unfollow_run_no_index cs (New t) h).1]
    rfl
  refine ⟨key tp, ?_, ?_⟩
  · unfold Unfollow.Do
    rw [key tp]
  · unfold Unfollow.Do
    rw [key tp.counting]

/-- Witness of C8: a configuration with one header and no index, on a
transport that would answer 200. -/
theorem unfollow_do_without_index_witness :
    (∀ c ∈ [Call.Header "Accept" "text/plain"], c.isIndex = false)
      ∧ ((run (New (constTransport (.ok (sampleResponse 200 []))))
            [Call.Header "Accept" "text/plain"]).HttpRequest none).2 = .error ErrBuildPath
      ∧ (run (New (constTransport (.ok (sampleResponse 200 []))))
            [Call.Header "Accept" "text/plain"]).Do none () = (.error ErrBuildPath, ())
      ∧ (run (New (constTransport (.ok (sampleResponse 200 []))).counting)
            [Call.Header "Accept" "text/plain"]).Do none ((), 0)
          = (.error ErrBuildPath, ((), 0)) :=
  ⟨by decide, unfollow_do_without_index _ _ _ _ _ (by decide)⟩

end unfollow

namespace closepointintime

/-- C4: on a fresh configuration with both `Raw(raw)`, `raw` not nil, and
`Request(req)` called, in either order, `HttpRequest` returns a request (no
error) whose body is exactly `raw`, whatever `req` is and whether or not it
can be serialised. -/
theorem closePointInTime_raw_wins {Req σ : Type} (marshal : Req → Except GoError Bytes)
    (tp : Transport σ) (raw : Bytes) (req : Option Req) (ctx : Option Context) :
    (((((New tp).Raw (some raw)).Request req).HttpRequest marshal ctx).2.toOption.map
        fun q => q.Body) = some raw
      ∧ (((((New tp).Request req).Raw (some raw)).HttpRequest marshal ctx).2.toOption.map
        fun q => q.Body) = some raw := by
  constructor
  · have hw : ClosePointInTime.writeBody marshal (((New tp).Raw (some raw)).Request req)
        = .ok { ((New tp).Raw (some raw)).Request req with buf := [] ++ raw } := rfl
    rw [closePointInTime_HttpRequest_of_writeBody marshal _ _ ctx hw]
    rfl
  · have hw : ClosePointInTime.writeBody marshal (((New tp).Request req).Raw (some raw))
        = .ok { ((New tp).Request req).Raw (some raw) with buf := [] ++ raw } := rfl
    rw [closePointInTime_HttpRequest_of_writeBody marshal _ _ ctx hw]
    rfl

/-- C5: on a fresh configuration without raw override (`Raw` never called, or
called with nil), a payload `req` whose serialisation succeeds with `data`
gives a request whose body is exactly `data`; with neither raw override nor
payload the body is empty. -/
theorem closePointInTime_body_without_raw {Req σ : Type}
    (marshal : Req → Except GoError Bytes) (tp : Transport σ) (req : Req) (data : Bytes)
    (ctx : Option Context) (h : marshal req = .ok data) :
    ((((New tp).Request (some req)).HttpRequest marshal ctx).2.toOption.map
        fun q => q.Body) = some data
      ∧ (((((New tp).Raw none).Request (some req)).HttpRequest marshal ctx).2.toOption.map
        fun q => q.Body) = some data
      ∧ (((New tp : ClosePointInTime Req σ).HttpRequest marshal ctx).2.toOption.map
        fun q => q.Body) = some [] := by
  refine ⟨?_, ?_, ?_⟩
  · have hw : ClosePointInTime.writeBody marshal ((New tp).Request (some req))
        = .ok { (New tp).Request (some req) with buf := [] ++ data } := by
      simp [ClosePointInTime.writeBody, ClosePointInTime.Request, New, h]
    rw [closePointInTime_HttpRequest_of_writeBody marshal _ _ ctx hw]
    rfl
  · have hw : ClosePointInTime.writeBody marshal (((New tp).Raw none).Request (some req))
        = .ok { ((New tp).Raw none).Request (some req) with buf := [] ++ data } := by
      simp [ClosePointInTime.writeBody, ClosePointInTime.Request, ClosePointInTime.Raw, New, h]
    rw [closePointInTime_HttpRequest_of_writeBody marshal _ _ ctx hw]
    rfl
  · have hw : ClosePointInTime.writeBody marshal (New tp : ClosePointInTime Req σ)
        = .ok (New tp) := rfl
    rw [closePointInTime_HttpRequest_of_writeBody marshal _ _ ctx hw]
    rfl

/-- Witness of C5: the payload `3` serialises to the byte `2`. -/
theorem closePointInTime_body_without_raw_witness :
    sampleMarshal 3 = .ok [2]
      ∧ (((((New (constTransport (.error connectionRefused))).Request (some 3)).HttpRequest
            sampleMarshal none).2.toOption.map fun q => q.Body) = some [2]
        ∧ (((((New (constTransport (.error connectionRefused))).Raw none).Request
            (some 3)).HttpRequest sampleMarshal none).2.toOption.map fun q => q.Body) = some [2]
        ∧ (((New (constTransport (.error connectionRefused)) :
            ClosePointInTime Nat Unit).HttpRequest sampleMarshal none).2.toOption.map
              fun q => q.Body) = some []) :=
  ⟨by decide, closePointInTime_body_without_raw sampleMarshal _ 3 [2] none (by decide)⟩

/-- C9: when there is no raw override and the payload cannot be serialised,
`HttpRequest` returns no request and an error that wraps the serialisation
error `e` and whose message starts with
`could not serialise request for ClosePointInTime: `; `Do` returns that same
error and leaves the world of the transport as it was (no `Perform`). -/
theorem closePointInTime_serialisation_failure {Req σ : Type}
    (marshal : Req → Except GoError Bytes) (r : ClosePointInTime Req σ) (req : Req)
    (e : GoError) (ctx : Option Context) (w : σ)
    (hraw : r.raw = none) (hreq : r.req = some req) (hm : marshal req = .error e) :
    ∃ err, (r.HttpRequest marshal ctx).2 = .error err
      ∧ err.Unwrap = some e
      ∧ err.Error = "could not serialise request for ClosePointInTime: " ++ e.Error
      ∧ (r.Do marshal ctx w).2 = (.error err, w) := by
  have hw : ClosePointInTime.writeBody marshal r
      = .error (.errorf "could not serialise request for ClosePointInTime: " e) := by
    simp [ClosePointInTime.writeBody, hraw, hreq, hm]
  have hb := closePointInTime_HttpRequest_of_writeBody_error marshal r ctx _ hw
  refine ⟨.errorf "could not serialise request for ClosePointInTime: " e, by rw [hb], rfl, rfl,
    ?_⟩
  unfold ClosePointInTime.Do
  simp only [hb]

/-- Witness of C9: the payload `0` cannot be serialised; the transport counts
its calls and the count stays `0`. -/
theorem closePointInTime_serialisation_failure_witness :
    ∃ err, (((New (constTransport (.ok (sampleResponse 200 []))).counting).Request
          (some 0)).HttpRequest sampleMarshal none).2 = .error err
      ∧ err.Unwrap = some (GoError.new "json: unsupported value")
      ∧ err.Error = "could not serialise request for ClosePointInTime: "
          ++ (GoError.new "json: unsupported value").Error
      ∧ (((New (constTransport (.ok (sampleResponse 200 []))).counting).Request
          (some 0)).Do sampleMarshal none ((), 0)).2 = (.error err, ((), 0)) :=
  closePointInTime_serialisation_failure sampleMarshal _ 0 _ none ((), 0) rfl rfl rfl

end closepointintime

namespace Header

theorem Get_Set_ne (h : Header) (key k value : String)
    (hk : CanonicalMIMEHeaderKey key ≠ CanonicalMIMEHeaderKey k) :
    (h.Set k value).Get key = h.Get key := by
  simp [Get, Set, StrMap.get?_set, hk]

/-- An absent header reads as the empty string. -/
theorem Get_of_Has_false (h : Header) (key : String) (hh : h.Has key = false) :
    h.Get key = "" := by
  by_contra hne
  rw [Has_of_Get_ne h key hne] at hh
  cases hh

end Header

namespace closepointintime

theorem contentType_ne_accept :
    CanonicalMIMEHeaderKey "Content-Type" ≠ CanonicalMIMEHeaderKey "Accept" := by
  decide

/-- The negotiated headers hold `Content-Type` exactly when the caller's do or
the body is not empty. -/
theorem negotiate_Has_contentType (h : Header) (body : Bytes) :
    (negotiate h body).Has "Content-Type" = (h.Has "Content-Type" || decide (body ≠ [])) := by
  have hacc : ∀ h1 : Header,
      (if h1.Get "Accept" = "" then h1.Set "Accept" mediaType else h1).Has "Content-Type"
        = h1.Has "Content-Type" := by
    intro h1
    split_ifs
    · rw [Header.Has_Set]
      simp [contentType_ne_accept]
    · rfl
  unfold negotiate
  simp only [hacc]
  by_cases hg : h.Get "Content-Type" = ""
  · by_cases hb : body.length > 0
    · have hne : body ≠ [] := by
        intro e; simp [e] at hb
      simp [hg, hb, hne, Header.Has_Set]
    · have he : body = [] := by
        cases body with
        | nil => rfl
        | cons a t => simp at hb
      simp [hg, he]
  · simp [hg, Header.Has_of_Get_ne h _ hg]

/-- Without a caller's `Content-Type` and with a body, the negotiated
`Content-Type` is the default media type. -/
theorem negotiate_Get_contentType (h : Header) (body : Bytes)
    (hh : h.Has "Content-Type" = false) (hb : body ≠ []) :
    (negotiate h body).Get "Content-Type" = mediaType := by
  have hg := Header.Get_of_Has_false h _ hh
  have hl : body.length > 0 := by
    cases body with
    | nil => exact absurd rfl hb
    | cons a t => simp
  unfold negotiate
  simp only [hg, hl, if_true]
  split_ifs
  · rw [Header.Get_Set_ne _ _ _ _ contentType_ne_accept, Header.Get_Set]
  · rw [Header.Get_Set]

/-- C10 (as stated, fails): a configuration with no body on which the caller
set `Content-Type` builds a request that has a `Content-Type` header, although
it is not the case that the body is non-empty and the caller did not set it. -/
theorem closePointInTime_contentType_claim_fails :
    ((run sampleMarshal (New (constTransport (.error connectionRefused)))
          [Call.Header "Content-Type" "text/plain"]).HttpRequest sampleMarshal none).2
        = .ok { Method := "DELETE", URL := { Scheme := "http", Path := "/_pit", RawQuery := "" },
                Header := ⟨[("Accept", [mediaType]), ("Content-Type", ["text/plain"])]⟩,
                Body := [], ctx := .background }
      ∧ ¬ ((Header.mk [("Accept", [mediaType]), ("Content-Type", ["text/plain"])]).Has
              "Content-Type" = true
            ↔ (([] : Bytes) ≠ []
                ∧ callerSet "Content-Type" [(Call.Header "Content-Type" "text/plain" : Call Nat)]
                    = false)) := by
  refine ⟨by rfl, by decide⟩

/-- C10 (amended): for every configuration reached from `New` that builds, the
request has a `Content-Type` header if and only if the resolved body is not
empty or the caller set `Content-Type` through `Header`; when the caller did
not set it and the body is not empty, its value is the default media type. -/
theorem closePointInTime_contentType_iff {Req σ : Type} (marshal : Req → Except GoError Bytes)
    (tp : Transport σ) (cs : List (Call Req)) (ctx : Option Context) (req : HttpReq)
    (h : ((run marshal (New tp) cs).HttpRequest marshal ctx).2 = .ok req) :
    (req.Header.Has "Content-Type" = true
        ↔ (req.Body ≠ [] ∨ callerSet "Content-Type" cs = true))
      ∧ (callerSet "Content-Type" cs = false → req.Body ≠ [] →
          req.Header.Get "Content-Type" = mediaType) := by
  have hH := closePointInTime_run_headers_Has marshal "Content-Type" cs (New tp)
  have hN : (New tp : ClosePointInTime Req σ).headers.Has "Content-Type" = false := rfl
  rw [hN, Bool.false_or] at hH
  cases hw : ClosePointInTime.writeBody marshal (run marshal (New tp) cs) with
  | error err =>
    rw [closePointInTime_HttpRequest_of_writeBody_error marshal _ ctx err hw] at h
    cases h
  | ok r1 =>
    rw [closePointInTime_HttpRequest_of_writeBody marshal _ r1 ctx hw] at h
    have hf := (closePointInTime_writeBody_fields marshal _ r1 hw).1
    split_ifs at h
    · simp only [Except.ok.injEq] at h
      subst h
      simp only
      rw [hf]
      constructor
      · rw [negotiate_Has_contentType, hH]
        by_cases hb : r1.buf = [] <;> simp [hb]
      · intro hc hb
        exact negotiate_Get_contentType _ _ (by rw [hH]; exact hc) hb

/-- Witness of C10 (amended): a raw body after an earlier build, and no
`Content-Type` from the caller. -/
theorem closePointInTime_contentType_iff_witness :
    ((Header.mk [("Accept", ["text/plain"]), ("Content-Type", [mediaType])]).Has "Content-Type"
          = true
        ↔ (([1, 2] : Bytes) ≠ []
          ∨ callerSet "Content-Type"
              [(Call.Header "accept" "text/plain" : Call Nat), Call.HttpRequest none,
                Call.Raw (some [1, 2])] = true))
      ∧ (callerSet "Content-Type"
            [(Call.Header "accept" "text/plain" : Call Nat), Call.HttpRequest none,
              Call.Raw (some [1, 2])] = false →
          ([1, 2] : Bytes) ≠ [] →
          (Header.mk [("Accept", ["text/plain"]), ("Content-Type", [mediaType])]).Get
            "Content-Type" = mediaType) :=
  closePointInTime_contentType_iff sampleMarshal (constTransport (.error connectionRefused))
    [Call.Header "accept" "text/plain", Call.HttpRequest none, Call.Raw (some [1, 2])] none
    { Method := "DELETE", URL := { Scheme := "http", Path := "/_pit", RawQuery := "" },
      Header := ⟨[("Accept", ["text/plain"]), ("Content-Type", [mediaType])]⟩,
      Body := [1, 2], ctx := .background }
    (by rfl)

end closepointintime

/-! ## Claims about dispatch (`Do`, `IsSuccess`) -/

/-- C6: when the request builds, the transport answers it with a response of
status `s`, and closing the body of the response succeeds, `IsSuccess` of
`GetPipeline` and of `Unfollow` returns `(true, nil)` if `200 ≤ s < 300` and
`(false, nil)` otherwise, whatever the body of the response holds. -/
theorem isSuccess_by_status {σ : Type} (g : getpipeline.GetPipeline σ)
    (u : unfollow.Unfollow σ) (ctx : Option Context) (w w' : σ) (req : HttpReq)
    (res : HttpResponse) :
    ((g.HttpRequest ctx).2 = .ok req → g.transport.Perform req w = (.ok res, w') →
        res.Body.closeErr = none →
        (g.IsSuccess ctx w).ret = (decide (200 ≤ res.StatusCode ∧ res.StatusCode < 300), none))
      ∧ ((u.HttpRequest ctx).2 = .ok req → u.transport.Perform req w = (.ok res, w') →
        res.Body.closeErr = none →
        (u.IsSuccess ctx w).ret = (decide (200 ≤ res.StatusCode ∧ res.StatusCode < 300), none)) := by
  constructor
  · intro hb hp hc
    have hd : g.Do ctx w = (.ok res, w') := by
      unfold getpipeline.GetPipeline.Do
      rw [hb]; simp only [hp]
    unfold getpipeline.GetPipeline.IsSuccess
    rw [hd]
    simp only [Body.Close, Body.discard, hc]
    by_cases hs : 200 ≤ res.StatusCode ∧ res.StatusCode < 300
    · simp [hs]
    · rw [if_neg (by simpa using hs)]
      simp [hs]
  · intro hb hp hc
    have hd : u.Do ctx w = (.ok res, w') := by
      unfold unfollow.Unfollow.Do
      rw [hb]; simp only [hp]
    unfold unfollow.Unfollow.IsSuccess
    rw [hd]
    simp only [Body.Close, Body.discard, hc]
    by_cases hs : 200 ≤ res.StatusCode ∧ res.StatusCode < 300
    · simp [hs]
    · rw [if_neg (by simpa using hs)]
      simp [hs]

/-- Witness of C6: statuses 200 and 300 on `GetPipeline`, 299 and 199 on
`Unfollow`, with and without bytes in the body of the response. -/
theorem isSuccess_by_status_witness :
    ((getpipeline.New (constTransport (.ok (sampleResponse 200 [123, 125])))).IsSuccess
          none ()).ret = (true, none)
      ∧ ((getpipeline.New (constTransport (.ok (sampleResponse 300 [])))).IsSuccess
          none ()).ret = (false, none)
      ∧ ((unfollow.NewUnfollowFunc (constTransport (.ok (sampleResponse 299 []))) "logs").IsSuccess
          none ()).ret = (true, none)
      ∧ ((unfollow.NewUnfollowFunc (constTransport (.ok (sampleResponse 199 [1]))) "logs").IsSuccess
          none ()).ret = (false, none) :=
  ⟨(isSuccess_by_status (getpipeline.New (constTransport (.ok (sampleResponse 200 [123, 125]))))
      (unfollow.New (constTransport (.ok (sampleResponse 200 [123, 125])))) none () ()
      { Method := "GET", URL := { Scheme := "http", Path := "/_ingest/pipeline", RawQuery := "" },
        Header := ⟨[("Accept", [mediaType])]⟩, Body := [], ctx := .background }
      (sampleResponse 200 [123, 125])).1 (by rfl) rfl rfl,
   (isSuccess_by_status (getpipeline.New (constTransport (.ok (sampleResponse 300 []))))
      (unfollow.New (constTransport (.ok (sampleResponse 300 [])))) none () ()
      { Method := "GET", URL := { Scheme := "http", Path := "/_ingest/pipeline", RawQuery := "" },
        Header := ⟨[("Accept", [mediaType])]⟩, Body := [], ctx := .background }
      (sampleResponse 300 [])).1 (by rfl) rfl rfl,
   (isSuccess_by_status (getpipeline.New (constTransport (.ok (sampleResponse 299 []))))
      (unfollow.NewUnfollowFunc (constTransport (.ok (sampleResponse 299 []))) "logs") none () ()
      { Method := "POST", URL := { Scheme := "http", Path := "/logs/_ccr/unfollow", RawQuery := "" },
        Header := ⟨[("Accept", [mediaType])]⟩, Body := [], ctx := .background }
      (sampleResponse 299 [])).2 (by rfl) rfl rfl,
   (isSuccess_by_status (getpipeline.New (constTransport (.ok (sampleResponse 199 [1]))))
      (unfollow.NewUnfollowFunc (constTransport (.ok (sampleResponse 199 [1]))) "logs") none () ()
      { Method := "POST", URL := { Scheme := "http", Path := "/logs/_ccr/unfollow", RawQuery := "" },
        Header := ⟨[("Accept", [mediaType])]⟩, Body := [], ctx := .background }
      (sampleResponse 199 [1])).2 (by rfl) rfl rfl⟩

/-- C7: when the request builds and `Perform` returns the error `e`, `Do` of
`GetPipeline`, `Unfollow` and `ClosePointInTime` returns no response and an
error that wraps `e` (`errors.Unwrap` gives `e`) and whose message is the
endpoint's context `an error happened during the <Endpoint> query execution: `
followed by the message of `e`. -/
theorem do_wraps_transport_error {Req σ : Type} (g : getpipeline.GetPipeline σ)
    (u : unfollow.Unfollow σ) (c : closepointintime.ClosePointInTime Req σ)
    (marshal : Req → Except GoError Bytes) (ctx : Option Context) (w w' : σ) (req : HttpReq)
    (e : GoError) :
    ((g.HttpRequest ctx).2 = .ok req → g.transport.Perform req w = (.error e, w') →
        ∃ err, (g.Do ctx w).1 = .error err ∧ err.Unwrap = some e
          ∧ err.Error = "an error happened during the GetPipeline query execution: " ++ e.Error)
      ∧ ((u.HttpRequest ctx).2 = .ok req → u.transport.Perform req w = (.error e, w') →
        ∃ err, (u.Do ctx w).1 = .error err ∧ err.Unwrap = some e
          ∧ err.Error = "an error happened during the Unfollow query execution: " ++ e.Error)
      ∧ ((c.HttpRequest marshal ctx).2 = .ok req → c.transport.Perform req w = (.error e, w') →
        ∃ err, (c.Do marshal ctx w).2.1 = .error err ∧ err.Unwrap = some e
          ∧ err.Error
              = "an error happened during the ClosePointInTime query execution: " ++ e.Error) := by
  refine ⟨?_, ?_, ?_⟩
  · intro hb hp
    refine ⟨.errorf "an error happened during the GetPipeline query execution: " e, ?_, rfl, rfl⟩
    unfold getpipeline.GetPipeline.Do
    rw [hb]; simp only [hp]
  · intro hb hp
    refine ⟨.errorf "an error happened during the Unfollow query execution: " e, ?_, rfl, rfl⟩
    unfold unfollow.Unfollow.Do
    rw [hb]; simp only [hp]
  · intro hb hp
    refine ⟨.errorf "an error happened during the ClosePointInTime query execution: " e, ?_, rfl,
      rfl⟩
    unfold closepointintime.ClosePointInTime.Do
    simp only [hb, hp]

/-- Witness of C7: the three endpoints on a transport that refuses the
connection. -/
theorem do_wraps_transport_error_witness :
    (∃ err, ((getpipeline.New (constTransport (.error connectionRefused))).Do none ()).1
          = .error err ∧ err.Unwrap = some connectionRefused
        ∧ err.Error = "an error happened during the GetPipeline query execution: "
            ++ connectionRefused.Error)
      ∧ (∃ err, ((unfollow.NewUnfollowFunc (constTransport (.error connectionRefused))
            "logs").Do none ()).1 = .error err ∧ err.Unwrap = some connectionRefused
        ∧ err.Error = "an error happened during the Unfollow query execution: "
            ++ connectionRefused.Error)
      ∧ (∃ err, (((closepointintime.New (constTransport (.error connectionRefused))).Request
            (some 3)).Do sampleMarshal none ()).2.1 = .error err
        ∧ err.Unwrap = some connectionRefused
        ∧ err.Error = "an error happened during the ClosePointInTime query execution: "
            ++ connectionRefused.Error) :=
  ⟨(do_wraps_transport_error (getpipeline.New (constTransport (.error connectionRefused)))
      (unfollow.NewUnfollowFunc (constTransport (.error connectionRefused)) "logs")
      ((closepointintime.New (constTransport (.error connectionRefused))).Request (some 3))
      sampleMarshal none () ()
      { Method := "GET", URL := { Scheme := "http", Path := "/_ingest/pipeline", RawQuery := "" },
        Header := ⟨[("Accept", [mediaType])]⟩, Body := [], ctx := .background }
      connectionRefused).1 (by rfl) rfl,
   (do_wraps_transport_error (getpipeline.New (constTransport (.error connectionRefused)))
      (unfollow.NewUnfollowFunc (constTransport (.error connectionRefused)) "logs")
      ((closepointintime.New (constTransport (.error connectionRefused))).Request (some 3))
      sampleMarshal none () ()
      { Method := "POST", URL := { Scheme := "http", Path := "/logs/_ccr/unfollow", RawQuery := "" },
        Header := ⟨[("Accept", [mediaType])]⟩, Body := [], ctx := .background }
      connectionRefused).2.1 (by rfl) rfl,
   (do_wraps_transport_error (getpipeline.New (constTransport (.error connectionRefused)))
      (unfollow.NewUnfollowFunc (constTransport (.error connectionRefused)) "logs")
      ((closepointintime.New (constTransport (.error connectionRefused))).Request (some 3))
      sampleMarshal none () ()
      { Method := "DELETE", URL := { Scheme := "http", Path := "/_pit", RawQuery := "" },
        Header := ⟨[("Accept", [mediaType]), ("Content-Type", [mediaType])]⟩, Body := [2],
        ctx := .background }
      connectionRefused).2.2 (by rfl) rfl⟩

/-! ## Lemmas: headers of a built request -/

namespace Header

theorem canonical_accept : CanonicalMIMEHeaderKey "Accept" = "Accept" := by decide

theorem canonical_contentType : CanonicalMIMEHeaderKey "Content-Type" = "Content-Type" := by
  decide

/-- A header that holds the single value `v` reads as `v`. -/
theorem Get_of_get? (h : Header) (key v : String)
    (hg : StrMap.get? (CanonicalMIMEHeaderKey key) h.entries = some [v]) : h.Get key = v := by
  simp [Get, hg]

/-- Setting the default under `name`, done when `name` reads as empty, leaves an
entry `[v]` under `K` as it is, unless `K` is `name` and `v` is empty. -/
theorem set_default_get? (h : Header) (name K v value : String)
    (hg : StrMap.get? K h.entries = some [v])
    (hk : v ≠ "" ∨ K ≠ CanonicalMIMEHeaderKey name) (he : h.Get name = "") :
    StrMap.get? K (h.Set name value).entries = some [v] := by
  have hne : K ≠ CanonicalMIMEHeaderKey name := by
    intro e
    subst e
    have hv : h.Get name = v := Get_of_get? h name v hg
    rcases hk with hk | hk
    · exact hk (hv.symm.trans he)
    · exact hk rfl
  simp [Set, StrMap.get?_set, hne, hg]

/-- The `Accept` step of `HttpRequest` keeps an entry `[v]` under `K`, unless
`K` is `Accept` and `v` is empty. -/
theorem accept_step_get? (h : Header) (K v : String)
    (hg : StrMap.get? K h.entries = some [v]) (hk : v ≠ "" ∨ K ≠ "Accept") :
    StrMap.get? K (if h.Get "Accept" = "" then h.Set "Accept" mediaType else h).entries
      = some [v] := by
  split_ifs with he
  · exact set_default_get? h "Accept" K v mediaType hg (by rw [canonical_accept]; exact hk) he
  · exact hg

/-- The `Accept` step of `HttpRequest` gives the default when the header is
absent. -/
theorem accept_step_Get (h : Header) (hh : h.Has "Accept" = false) :
    (if h.Get "Accept" = "" then h.Set "Accept" mediaType else h).Get "Accept" = mediaType := by
  rw [if_pos (Get_of_Has_false h _ hh), Get_Set]

end Header

/-! ## Lemmas: call histories of `getpipeline` -/

namespace getpipeline

variable {σ : Type}

/-- The method `HttpRequest` changes nothing but the field `path` of its receiver. -/
theorem getPipeline_HttpRequest_fst (r : GetPipeline σ) (ctx : Option Context) :
    (r.HttpRequest ctx).1.paramSet = r.paramSet ∧ (r.HttpRequest ctx).1.id = r.id
      ∧ (r.HttpRequest ctx).1.headers = r.headers ∧ (r.HttpRequest ctx).1.values = r.values := by
  unfold GetPipeline.HttpRequest
  by_cases h : r.paramSet = 0
  · simp only [h, if_true, getPipeline_path_literal]
    rw [if_neg (by decide)]
    cases ctx <;> exact ⟨rfl, rfl, rfl, rfl⟩
  · by_cases h' : r.paramSet = idMask
    · have h1 : ¬ idMask = 0 := by decide
      simp only [h', h1, if_true, if_false, getPipeline_path_literal_id]
      rw [if_neg (append_ne_empty _ _ (by decide))]
      cases ctx <;> exact ⟨rfl, rfl, rfl, rfl⟩
    · simp [h, h']

theorem getPipeline_run_cons (r : GetPipeline σ) (c : Call) (cs : List Call) :
    run r (c :: cs) = run (Call.apply r c) cs := rfl

theorem getPipeline_run_append (r : GetPipeline σ) (cs cs' : List Call) :
    run r (cs ++ cs') = run (run r cs) cs' := by
  simp [run, List.foldl_append]

/-- Calls other than `Id` leave the presence flags alone. -/
theorem getPipeline_run_no_id (cs : List Call) (r : GetPipeline σ)
    (h : ∀ c ∈ cs, c.isId = false) : (run r cs).paramSet = r.paramSet := by
  induction cs generalizing r with
  | nil => rfl
  | cons c cs ih =>
    rw [getPipeline_run_cons, ih _ (fun c' hc' => h c' (List.mem_cons_of_mem _ hc'))]
    have hc := h c (List.mem_cons_self _ _)
    cases c with
    | Id v => simp [Call.isId] at hc
    | MasterTimeout value => rfl
    | Summary b => rfl
    | Header key value => rfl
    | HttpRequest ctx => exact (getPipeline_HttpRequest_fst r ctx).1

/-- A header is present after a sequence of calls exactly when it was present
before or one of the calls set it. -/
theorem getPipeline_run_headers_Has (key : String) (cs : List Call) (r : GetPipeline σ) :
    (run r cs).headers.Has key = (r.headers.Has key || callerSet key cs) := by
  induction cs generalizing r with
  | nil => simp [run, callerSet]
  | cons c cs ih =>
    rw [getPipeline_run_cons, ih]
    cases c with
    | Id v => simp [Call.apply, GetPipeline.Id, callerSet, Call.setsHeader]
    | MasterTimeout value =>
      simp [Call.apply, GetPipeline.MasterTimeout, callerSet, Call.setsHeader]
    | Summary b => simp [Call.apply, GetPipeline.Summary, callerSet, Call.setsHeader]
    | Header k v =>
      simp only [Call.apply, GetPipeline.Header, Header.Has_Set, callerSet, List.any_cons,
        Call.setsHeader]
      by_cases hk : CanonicalMIMEHeaderKey key = CanonicalMIMEHeaderKey k
      · simp [hk]
      · have hk' : ¬ CanonicalMIMEHeaderKey k = CanonicalMIMEHeaderKey key := fun e => hk e.symm
        simp [hk, hk']
    | HttpRequest ctx =>
      simp [Call.apply, (getPipeline_HttpRequest_fst r ctx).2.2.1, callerSet, Call.setsHeader]

/-- Calls that do not set the header `k` leave its entry alone. -/
theorem getPipeline_run_headers_get? (k : String) (cs : List Call) (r : GetPipeline σ)
    (h : ∀ c ∈ cs, c.setsHeader k = false) :
    StrMap.get? (CanonicalMIMEHeaderKey k) (run r cs).headers.entries
      = StrMap.get? (CanonicalMIMEHeaderKey k) r.headers.entries := by
  induction cs generalizing r with
  | nil => rfl
  | cons c cs ih =>
    rw [getPipeline_run_cons, ih _ (fun c' hc' => h c' (List.mem_cons_of_mem _ hc'))]
    have hc := h c (List.mem_cons_self _ _)
    cases c with
    | Id v => rfl
    | MasterTimeout value => rfl
    | Summary b => rfl
    | Header key value =>
      have hne : CanonicalMIMEHeaderKey k ≠ CanonicalMIMEHeaderKey key := by
        intro e
        simp [Call.setsHeader, e] at hc
      simp [Call.apply, GetPipeline.Header, Header.Set, StrMap.get?_set, hne]
    | HttpRequest ctx => simp [Call.apply, (getPipeline_HttpRequest_fst r ctx).2.2.1]

/-- The headers of a request that `HttpRequest` built. -/
theorem getPipeline_built_header (r : GetPipeline σ) (ctx : Option Context) (req : HttpReq)
    (h : (r.HttpRequest ctx).2 = .ok req) :
    req.Header = if r.headers.Get "Accept" = "" then r.headers.Set "Accept" mediaType
      else r.headers := by
  rw [getPipeline_HttpRequest_snd] at h
  split_ifs at h <;> simp only [Except.ok.injEq] at h <;> subst h <;> simp_all

end getpipeline

/-! ## Lemmas: call histories of `closepointintime` -/

namespace closepointintime

variable {Req σ : Type}

/-- The method `HttpRequest` leaves the presence flags as they are. -/
theorem closePointInTime_HttpRequest_fst_paramSet (marshal : Req → Except GoError Bytes)
    (r : ClosePointInTime Req σ) (ctx : Option Context) :
    (r.HttpRequest marshal ctx).1.paramSet = r.paramSet := by
  cases hw : ClosePointInTime.writeBody marshal r with
  | error err => rw [closePointInTime_HttpRequest_of_writeBody_error marshal r ctx err hw]
  | ok r1 =>
    rw [closePointInTime_HttpRequest_of_writeBody marshal r r1 ctx hw]
    split_ifs <;> exact (closePointInTime_writeBody_fields marshal r r1 hw).2.1

/-- The presence flags stay `0` whatever is called. -/
theorem closePointInTime_run_paramSet (marshal : Req → Except GoError Bytes)
    (cs : List (Call Req)) (r : ClosePointInTime Req σ) :
    (run marshal r cs).paramSet = r.paramSet := by
  induction cs generalizing r with
  | nil => rfl
  | cons c cs ih =>
    rw [closePointInTime_run_cons, ih]
    cases c with
    | Raw raw => rfl
    | Request req => rfl
    | Header k v => rfl
    | HttpRequest ctx => exact closePointInTime_HttpRequest_fst_paramSet marshal r ctx

theorem closePointInTime_run_append (marshal : Req → Except GoError Bytes)
    (r : ClosePointInTime Req σ) (cs cs' : List (Call Req)) :
    run marshal r (cs ++ cs') = run marshal (run marshal r cs) cs' := by
  simp [run, List.foldl_append]

/-- Calls that do not set the header `k` leave its entry alone. -/
theorem closePointInTime_run_headers_get? (marshal : Req → Except GoError Bytes) (k : String)
    (cs : List (Call Req)) (r : ClosePointInTime Req σ)
    (h : ∀ c ∈ cs, c.setsHeader k = false) :
    StrMap.get? (CanonicalMIMEHeaderKey k) (run marshal r cs).headers.entries
      = StrMap.get? (CanonicalMIMEHeaderKey k) r.headers.entries := by
  induction cs generalizing r with
  | nil => rfl
  | cons c cs ih =>
    rw [closePointInTime_run_cons, ih _ (fun c' hc' => h c' (List.mem_cons_of_mem _ hc'))]
    have hc := h c (List.mem_cons_self _ _)
    cases c with
    | Raw raw => rfl
    | Request req => rfl
    | Header key value =>
      have hne : CanonicalMIMEHeaderKey k ≠ CanonicalMIMEHeaderKey key := by
        intro e
        simp [Call.setsHeader, e] at hc
      simp [Call.apply, ClosePointInTime.Header, Header.Set, StrMap.get?_set, hne]
    | HttpRequest ctx => simp [Call.apply, closePointInTime_HttpRequest_fst_headers]

/-- A request that `HttpRequest` built: DELETE on `/_pit`, with the
negotiated headers and the buffer as body. -/
theorem closePointInTime_built (marshal : Req → Except GoError Bytes)
    (r : ClosePointInTime Req σ) (ctx : Option Context) (req : HttpReq)
    (h : (r.HttpRequest marshal ctx).2 = .ok req) :
    req.Method = "DELETE" ∧ req.URL.Path = "/_pit"
      ∧ req.Header = negotiate r.headers req.Body := by
  cases hw : ClosePointInTime.writeBody marshal r with
  | error err =>
    rw [closePointInTime_HttpRequest_of_writeBody_error marshal r ctx err hw] at h
    cases h
  | ok r1 =>
    rw [closePointInTime_HttpRequest_of_writeBody marshal r r1 ctx hw] at h
    have hf := (closePointInTime_writeBody_fields marshal r r1 hw).1
    split_ifs at h
    simp only [Except.ok.injEq] at h
    subst h
    exact ⟨rfl, rfl, by simp [hf]⟩

/-- The negotiation keeps an entry `[v]` under `K`, unless `v` is empty and
`K` is `Accept` or `Content-Type`. -/
theorem negotiate_get? (h : Header) (body : Bytes) (K v : String)
    (hg : StrMap.get? K h.entries = some [v])
    (hk : v ≠ "" ∨ (K ≠ "Accept" ∧ K ≠ "Content-Type")) :
    StrMap.get? K (negotiate h body).entries = some [v] := by
  unfold negotiate
  have hk1 : v ≠ "" ∨ K ≠ "Accept" := hk.imp id And.left
  have hk2 : v ≠ "" ∨ K ≠ CanonicalMIMEHeaderKey "Content-Type" := by
    rw [Header.canonical_contentType]; exact hk.imp id And.right
  apply Header.accept_step_get? _ K v _ hk1
  split_ifs with he hb
  · exact Header.set_default_get? h "Content-Type" K v mediaType hg hk2 he
  · exact hg
  · exact hg

/-- The negotiated `Accept` is the default when the caller's headers hold
neither `Accept` nor `Content-Type`. -/
theorem negotiate_Get_accept (h : Header) (body : Bytes) (ha : h.Has "Accept" = false) :
    (negotiate h body).Get "Accept" = mediaType := by
  unfold negotiate
  apply Header.accept_step_Get
  split_ifs
  · rw [Header.Has_Set, ha]
    have : CanonicalMIMEHeaderKey "Accept" ≠ CanonicalMIMEHeaderKey "Content-Type" :=
      fun e => contentType_ne_accept e.symm
    simp [this]
  · exact ha
  · exact ha

end closepointintime

/-! ## Claims about headers -/

/-- C11 (as stated, fails): an empty `Accept` set by the caller is replaced by
the default media type in the request `GetPipeline` builds, and so is an empty
`Content-Type` in the request `ClosePointInTime` builds around a body. -/
theorem caller_empty_header_overwritten :
    (((getpipeline.New (constTransport (.error connectionRefused))).Header "Accept"
          "").HttpRequest none).2
        = .ok { Method := "GET",
                URL := { Scheme := "http", Path := "/_ingest/pipeline", RawQuery := "" },
                Header := ⟨[("Accept", [mediaType])]⟩, Body := [], ctx := .background }
      ∧ (Header.mk [("Accept", [mediaType])]).Get "Accept" ≠ ""
      ∧ ((((closepointintime.New (constTransport (.error connectionRefused))).Header
            "Content-Type" "").Raw (some [123, 125])).HttpRequest sampleMarshal none).2
        = .ok { Method := "DELETE", URL := { Scheme := "http", Path := "/_pit", RawQuery := "" },
                Header := ⟨[("Accept", [mediaType]), ("Content-Type", [mediaType])]⟩,
                Body := [123, 125], ctx := .background }
      ∧ (Header.mk [("Accept", [mediaType]), ("Content-Type", [mediaType])]).Get "Content-Type"
          ≠ "" := by
  refine ⟨by rfl, by decide, by rfl, by decide⟩

/-- C11 (amended): when the last `Header` call for the key `k` set the value
`v`, and `v` is not empty or `k` is neither `Accept` nor (for
`ClosePointInTime`) `Content-Type`, the request that `GetPipeline` or
`ClosePointInTime` builds carries exactly `[v]` under `k`, whatever the body
is. -/
theorem caller_header_kept {Req σ : Type} (tp : Transport σ)
    (marshal : Req → Except GoError Bytes) (gs gs' : List getpipeline.Call)
    (cs cs' : List (closepointintime.Call Req)) (k v : String) (ctx : Option Context)
    (req : HttpReq) :
    ((∀ c ∈ gs', c.setsHeader k = false) →
        (v ≠ "" ∨ CanonicalMIMEHeaderKey k ≠ "Accept") →
        ((getpipeline.run (getpipeline.New tp)
            (gs ++ getpipeline.Call.Header k v :: gs')).HttpRequest ctx).2 = .ok req →
        StrMap.get? (CanonicalMIMEHeaderKey k) req.Header.entries = some [v]
          ∧ req.Header.Get k = v)
      ∧ ((∀ c ∈ cs', c.setsHeader k = false) →
        (v ≠ "" ∨ (CanonicalMIMEHeaderKey k ≠ "Accept"
          ∧ CanonicalMIMEHeaderKey k ≠ "Content-Type")) →
        ((closepointintime.run marshal (closepointintime.New tp)
            (cs ++ closepointintime.Call.Header k v :: cs')).HttpRequest marshal ctx).2
          = .ok req →
        StrMap.get? (CanonicalMIMEHeaderKey k) req.Header.entries = some [v]
          ∧ req.Header.Get k = v) := by
  constructor
  · intro hs hk hb
    have hg : StrMap.get? (CanonicalMIMEHeaderKey k)
        (getpipeline.run (getpipeline.New tp)
          (gs ++ getpipeline.Call.Header k v :: gs')).headers.entries = some [v] := by
      rw [getpipeline.getPipeline_run_append, getpipeline.getPipeline_run_cons,
        getpipeline.getPipeline_run_headers_get? k gs' _ hs]
      simp [getpipeline.Call.apply, getpipeline.GetPipeline.Header, Header.Set, StrMap.get?_set]
    have hh := getpipeline.getPipeline_built_header _ ctx req hb
    have hr : StrMap.get? (CanonicalMIMEHeaderKey k) req.Header.entries = some [v] := by
      rw [hh]
      exact Header.accept_step_get? _ _ v hg hk
    exact ⟨hr, Header.Get_of_get? _ _ _ hr⟩
  · intro hs hk hb
    have hg : StrMap.get? (CanonicalMIMEHeaderKey k)
        (closepointintime.run marshal (closepointintime.New tp)
          (cs ++ closepointintime.Call.Header k v :: cs')).headers.entries = some [v] := by
      rw [closepointintime.closePointInTime_run_append,
        closepointintime.closePointInTime_run_cons,
        closepointintime.closePointInTime_run_headers_get? marshal k cs' _ hs]
      simp [closepointintime.Call.apply, closepointintime.ClosePointInTime.Header, Header.Set,
        StrMap.get?_set]
    have hh := (closepointintime.closePointInTime_built marshal _ ctx req hb).2.2
    have hr : StrMap.get? (CanonicalMIMEHeaderKey k) req.Header.entries = some [v] := by
      rw [hh]
      exact closepointintime.negotiate_get? _ _ _ v hg hk
    exact ⟨hr, Header.Get_of_get? _ _ _ hr⟩

/-- Witness of C11 (amended): `accept: text/plain` on `GetPipeline` after an
earlier `Accept`, and `content-type: text/plain` on `ClosePointInTime` with a
raw body. -/
theorem caller_header_kept_witness :
    (StrMap.get? (CanonicalMIMEHeaderKey "accept")
          (Header.mk [("Accept", ["text/plain"]), ("X-Opaque-Id", ["7"])]).entries
          = some ["text/plain"]
        ∧ (Header.mk [("Accept", ["text/plain"]), ("X-Opaque-Id", ["7"])]).Get "accept"
          = "text/plain")
      ∧ (StrMap.get? (CanonicalMIMEHeaderKey "content-type")
          (Header.mk [("Accept", [mediaType]), ("Content-Type", ["text/plain"])]).entries
          = some ["text/plain"]
        ∧ (Header.mk [("Accept", [mediaType]), ("Content-Type", ["text/plain"])]).Get
          "content-type" = "text/plain") :=
  ⟨(caller_header_kept (constTransport (.error connectionRefused)) sampleMarshal
      [getpipeline.Call.Header "Accept" "application/json"]
      [getpipeline.Call.Header "X-Opaque-Id" "7", getpipeline.Call.Id "p"]
      [] [closepointintime.Call.Raw (some [123, 125])] "accept" "text/plain" none
      { Method := "GET",
        URL := { Scheme := "http", Path := "/_ingest/pipeline/p", RawQuery := "" },
        Header := ⟨[("Accept", ["text/plain"]), ("X-Opaque-Id", ["7"])]⟩, Body := [],
        ctx := .background }).1 (by decide) (Or.inl (by decide)) (by rfl),
   (caller_header_kept (constTransport (.error connectionRefused)) sampleMarshal
      [] [] [] [closepointintime.Call.Raw (some [123, 125])] "content-type" "text/plain" none
      { Method := "DELETE", URL := { Scheme := "http", Path := "/_pit", RawQuery := "" },
        Header := ⟨[("Accept", [mediaType]), ("Content-Type", ["text/plain"])]⟩,
        Body := [123, 125], ctx := .background }).2 (by decide) (Or.inl (by decide)) (by rfl)⟩

namespace unfollow

/-- C12 (fails on the code): `Unfollow.HttpRequest` never reads the headers set
through `Header`. After `Header("Accept", "text/plain")` and
`Header("X-Opaque-Id", "7")` the built request carries the default media type
under `Accept` and nothing under `X-Opaque-Id`. -/
theorem unfollow_headers_dropped :
    ((((NewUnfollowFunc (constTransport (.error connectionRefused)) "logs").Header "Accept"
          "text/plain").Header "X-Opaque-Id" "7").HttpRequest none).2
        = .ok { Method := "POST",
                URL := { Scheme := "http", Path := "/logs/_ccr/unfollow", RawQuery := "" },
                Header := ⟨[("Accept", [mediaType])]⟩, Body := [], ctx := .background }
      ∧ (((NewUnfollowFunc (constTransport (.error connectionRefused)) "logs").Header "Accept"
          "text/plain").Header "X-Opaque-Id" "7").headers
        = ⟨[("Accept", ["text/plain"]), ("X-Opaque-Id", ["7"])]⟩
      ∧ (Header.mk [("Accept", [mediaType])]).Get "Accept" ≠ "text/plain"
      ∧ (Header.mk [("Accept", [mediaType])]).Has "X-Opaque-Id" = false := by
  refine ⟨by rfl, by decide, by decide, by decide⟩

end unfollow

/-- C13: when the caller set neither `Accept` nor `Content-Type`, a request
built by `GetPipeline`, `Unfollow` (whatever its headers) or
`ClosePointInTime` has `Accept` equal to the default media type; a
`ClosePointInTime` request has `Content-Type` equal to the default media type
when its body is not empty, and no `Content-Type` header when it is empty. -/
theorem default_headers {Req σ : Type} (tp : Transport σ)
    (marshal : Req → Except GoError Bytes) (gs : List getpipeline.Call)
    (u : unfollow.Unfollow σ) (cs : List (closepointintime.Call Req))
    (ctx : Option Context) (req : HttpReq) :
    (getpipeline.callerSet "Accept" gs = false →
        ((getpipeline.run (getpipeline.New tp) gs).HttpRequest ctx).2 = .ok req →
        req.Header.Get "Accept" = mediaType)
      ∧ ((u.HttpRequest ctx).2 = .ok req → req.Header.Get "Accept" = mediaType)
      ∧ (closepointintime.callerSet "Accept" cs = false →
        closepointintime.callerSet "Content-Type" cs = false →
        ((closepointintime.run marshal (closepointintime.New tp) cs).HttpRequest marshal ctx).2
          = .ok req →
        req.Header.Get "Accept" = mediaType
          ∧ (req.Body ≠ [] → req.Header.Get "Content-Type" = mediaType)
          ∧ (req.Body = [] → req.Header.Has "Content-Type" = false)) := by
  refine ⟨?_, ?_, ?_⟩
  · intro ha hb
    have hH := getpipeline.getPipeline_run_headers_Has "Accept" gs (getpipeline.New tp)
    have hN : (getpipeline.New tp).headers.Has "Accept" = false := rfl
    rw [hN, Bool.false_or, ha] at hH
    rw [getpipeline.getPipeline_built_header _ ctx req hb]
    exact Header.accept_step_Get _ hH
  · intro hb
    rw [unfollow.unfollow_HttpRequest_snd] at hb
    split_ifs at hb
    simp only [Except.ok.injEq] at hb
    subst hb
    exact (by decide : (Header.Set ⟨[]⟩ "accept" mediaType).Get "Accept" = mediaType)
  · intro ha hc hb
    have hA := closepointintime.closePointInTime_run_headers_Has marshal "Accept" cs
      (closepointintime.New tp)
    have hC := closepointintime.closePointInTime_run_headers_Has marshal "Content-Type" cs
      (closepointintime.New tp)
    have hN1 : (closepointintime.New tp : closepointintime.ClosePointInTime Req σ).headers.Has
        "Accept" = false := rfl
    have hN2 : (closepointintime.New tp : closepointintime.ClosePointInTime Req σ).headers.Has
        "Content-Type" = false := rfl
    rw [hN1, Bool.false_or, ha] at hA
    rw [hN2, Bool.false_or, hc] at hC
    have hh := (closepointintime.closePointInTime_built marshal _ ctx req hb).2.2
    rw [hh]
    refine ⟨closepointintime.negotiate_Get_accept _ _ hA, ?_, ?_⟩
    · intro hne
      exact closepointintime.negotiate_Get_contentType _ _ hC hne
    · intro he
      rw [closepointintime.negotiate_Has_contentType, hC, he]
      simp

/-- Witness of C13: `GetPipeline` with an id and a query parameter, `Unfollow`
with a caller's `Accept`, `ClosePointInTime` with a raw body. -/
theorem default_headers_witness :
    (Header.mk [("Accept", [mediaType]), ("X-Opaque-Id", ["7"])]).Get "Accept" = mediaType
      ∧ (Header.mk [("Accept", [mediaType])]).Get "Accept" = mediaType
      ∧ ((Header.mk [("Accept", [mediaType]), ("Content-Type", [mediaType])]).Get "Accept"
          = mediaType
        ∧ (([123, 125] : Bytes) ≠ [] →
          (Header.mk [("Accept", [mediaType]), ("Content-Type", [mediaType])]).Get "Content-Type"
            = mediaType)
        ∧ (([123, 125] : Bytes) = [] →
          (Header.mk [("Accept", [mediaType]), ("Content-Type", [mediaType])]).Has "Content-Type"
            = false)) :=
  ⟨(default_headers (constTransport (.error connectionRefused)) sampleMarshal
      [getpipeline.Call.Id "p", getpipeline.Call.Summary true,
        getpipeline.Call.Header "X-Opaque-Id" "7"]
      ((unfollow.NewUnfollowFunc (constTransport (.error connectionRefused)) "logs").Header
        "Accept" "text/plain")
      [closepointintime.Call.Raw (some [123, 125])] none
      { Method := "GET",
        URL := { Scheme := "http", Path := "/_ingest/pipeline/p", RawQuery := "summary=true" },
        Header := ⟨[("Accept", [mediaType]), ("X-Opaque-Id", ["7"])]⟩, Body := [],
        ctx := .background }).1 (by decide) (by rfl),
   (default_headers (constTransport (.error connectionRefused)) sampleMarshal
      []
      ((unfollow.NewUnfollowFunc (constTransport (.error connectionRefused)) "logs").Header
        "Accept" "text/plain")
      [closepointintime.Call.Raw (some [123, 125])] none
      { Method := "POST",
        URL := { Scheme := "http", Path := "/logs/_ccr/unfollow", RawQuery := "" },
        Header := ⟨[("Accept", [mediaType])]⟩, Body := [], ctx := .background }).2.1 (by rfl),
   (default_headers (constTransport (.error connectionRefused)) sampleMarshal
      []
      ((unfollow.NewUnfollowFunc (constTransport (.error connectionRefused)) "logs").Header
        "Accept" "text/plain")
      [closepointintime.Call.Raw (some [123, 125])] none
      { Method := "DELETE", URL := { Scheme := "http", Path := "/_pit", RawQuery := "" },
        Header := ⟨[("Accept", [mediaType]), ("Content-Type", [mediaType])]⟩,
        Body := [123, 125], ctx := .background }).2.2 (by decide) (by decide) (by rfl)⟩

/-! ## Claims about dispatch, continued -/

/-- C14: when the request builds and `Perform` returns the error `e`,
`IsSuccess` of `GetPipeline` and of `Unfollow` returns `(false, err)` where
`err` is the endpoint's wrapping of `e` (so never `(false, nil)`), and no
response body is read or closed. -/
theorem isSuccess_transport_error {σ : Type} (g : getpipeline.GetPipeline σ)
    (u : unfollow.Unfollow σ) (ctx : Option Context) (w w' : σ) (req : HttpReq)
    (e : GoError) :
    ((g.HttpRequest ctx).2 = .ok req → g.transport.Perform req w = (.error e, w') →
        (g.IsSuccess ctx w).ret
            = (false, some (.errorf "an error happened during the GetPipeline query execution: " e))
          ∧ (g.IsSuccess ctx w).ret ≠ (false, none)
          ∧ (g.IsSuccess ctx w).body = none)
      ∧ ((u.HttpRequest ctx).2 = .ok req → u.transport.Perform req w = (.error e, w') →
        (u.IsSuccess ctx w).ret
            = (false, some (.errorf "an error happened during the Unfollow query execution: " e))
          ∧ (u.IsSuccess ctx w).ret ≠ (false, none)
          ∧ (u.IsSuccess ctx w).body = none) := by
  constructor
  · intro hb hp
    have hd : g.Do ctx w
        = (.error (.errorf "an error happened during the GetPipeline query execution: " e),
            w') := by
      unfold getpipeline.GetPipeline.Do
      rw [hb]; simp only [hp]
    unfold getpipeline.GetPipeline.IsSuccess
    rw [hd]
    exact ⟨rfl, by simp, rfl⟩
  · intro hb hp
    have hd : u.Do ctx w
        = (.error (.errorf "an error happened during the Unfollow query execution: " e),
            w') := by
      unfold unfollow.Unfollow.Do
      rw [hb]; simp only [hp]
    unfold unfollow.Unfollow.IsSuccess
    rw [hd]
    exact ⟨rfl, by simp, rfl⟩

/-- Witness of C14: both endpoints on a transport that refuses the connection. -/
theorem isSuccess_transport_error_witness :
    (((getpipeline.New (constTransport (.error connectionRefused))).IsSuccess none ()).ret
          = (false, some (.errorf "an error happened during the GetPipeline query execution: "
              connectionRefused))
        ∧ ((getpipeline.New (constTransport (.error connectionRefused))).IsSuccess none ()).ret
          ≠ (false, none)
        ∧ ((getpipeline.New (constTransport (.error connectionRefused))).IsSuccess none ()).body
          = none)
      ∧ (((unfollow.NewUnfollowFunc (constTransport (.error connectionRefused))
            "logs").IsSuccess none ()).ret
          = (false, some (.errorf "an error happened during the Unfollow query execution: "
              connectionRefused))
        ∧ ((unfollow.NewUnfollowFunc (constTransport (.error connectionRefused))
            "logs").IsSuccess none ()).ret ≠ (false, none)
        ∧ ((unfollow.NewUnfollowFunc (constTransport (.error connectionRefused))
            "logs").IsSuccess none ()).body = none) :=
  ⟨(isSuccess_transport_error (getpipeline.New (constTransport (.error connectionRefused)))
      (unfollow.NewUnfollowFunc (constTransport (.error connectionRefused)) "logs") none () ()
      { Method := "GET", URL := { Scheme := "http", Path := "/_ingest/pipeline", RawQuery := "" },
        Header := ⟨[("Accept", [mediaType])]⟩, Body := [], ctx := .background }
      connectionRefused).1 (by rfl) rfl,
   (isSuccess_transport_error (getpipeline.New (constTransport (.error connectionRefused)))
      (unfollow.NewUnfollowFunc (constTransport (.error connectionRefused)) "logs") none () ()
      { Method := "POST", URL := { Scheme := "http", Path := "/logs/_ccr/unfollow", RawQuery := "" },
        Header := ⟨[("Accept", [mediaType])]⟩, Body := [], ctx := .background }
      connectionRefused).2 (by rfl) rfl⟩

/-- C15: when the request builds and the transport answers it with the
response `res`, `Do` of `GetPipeline`, `Unfollow` and `ClosePointInTime`
returns `res` itself and no error, whatever the status code of `res`; the
world is the one that a single `Perform` of the built request leaves, and a
transport that counts its `Perform` calls has counted one more. -/
theorem do_returns_response {Req σ : Type} (tp : Transport σ)
    (g : getpipeline.GetPipeline (σ × Nat)) (u : unfollow.Unfollow (σ × Nat))
    (c : closepointintime.ClosePointInTime Req (σ × Nat))
    (marshal : Req → Except GoError Bytes) (ctx : Option Context) (w w' : σ) (n : Nat)
    (req : HttpReq) (res : HttpResponse) :
    (g.transport = tp.counting → (g.HttpRequest ctx).2 = .ok req →
        tp.Perform req w = (.ok res, w') → g.Do ctx (w, n) = (.ok res, (w', n + 1)))
      ∧ (u.transport = tp.counting → (u.HttpRequest ctx).2 = .ok req →
        tp.Perform req w = (.ok res, w') → u.Do ctx (w, n) = (.ok res, (w', n + 1)))
      ∧ (c.transport = tp.counting → (c.HttpRequest marshal ctx).2 = .ok req →
        tp.Perform req w = (.ok res, w') →
        (c.Do marshal ctx (w, n)).2 = (.ok res, (w', n + 1))) := by
  refine ⟨?_, ?_, ?_⟩
  · intro ht hb hp
    unfold getpipeline.GetPipeline.Do
    rw [hb]
    simp only [ht, Transport.counting, hp]
  · intro ht hb hp
    unfold unfollow.Unfollow.Do
    rw [hb]
    simp only [ht, Transport.counting, hp]
  · intro ht hb hp
    unfold closepointintime.ClosePointInTime.Do
    simp only [hb, ht, Transport.counting, hp]

/-- Witness of C15: a 404 answer is returned as it is by the three endpoints,
and the counter goes from 0 to 1. -/
theorem do_returns_response_witness :
    (getpipeline.New (constTransport (.ok (sampleResponse 404 [123, 125]))).counting).Do none
          ((), 0) = (.ok (sampleResponse 404 [123, 125]), ((), 1))
      ∧ (unfollow.NewUnfollowFunc (constTransport (.ok (sampleResponse 404 [123, 125]))).counting
          "logs").Do none ((), 0) = (.ok (sampleResponse 404 [123, 125]), ((), 1))
      ∧ (((closepointintime.New (constTransport (.ok (sampleResponse 404 [123, 125]))).counting
          ).Request (some 3)).Do sampleMarshal none ((), 0)).2
          = (.ok (sampleResponse 404 [123, 125]), ((), 1)) :=
  ⟨(do_returns_response (constTransport (.ok (sampleResponse 404 [123, 125])))
      (getpipeline.New (constTransport (.ok (sampleResponse 404 [123, 125]))).counting)
      (unfollow.NewUnfollowFunc (constTransport (.ok (sampleResponse 404 [123, 125]))).counting
        "logs")
      ((closepointintime.New (constTransport (.ok (sampleResponse 404 [123, 125]))).counting
        ).Request (some 3))
      sampleMarshal none () () 0
      { Method := "GET", URL := { Scheme := "http", Path := "/_ingest/pipeline", RawQuery := "" },
        Header := ⟨[("Accept", [mediaType])]⟩, Body := [], ctx := .background }
      (sampleResponse 404 [123, 125])).1 rfl (by rfl) rfl,
   (do_returns_response (constTransport (.ok (sampleResponse 404 [123, 125])))
      (getpipeline.New (constTransport (.ok (sampleResponse 404 [123, 125]))).counting)
      (unfollow.NewUnfollowFunc (constTransport (.ok (sampleResponse 404 [123, 125]))).counting
        "logs")
      ((closepointintime.New (constTransport (.ok (sampleResponse 404 [123, 125]))).counting
        ).Request (some 3))
      sampleMarshal none () () 0
      { Method := "POST", URL := { Scheme := "http", Path := "/logs/_ccr/unfollow", RawQuery := "" },
        Header := ⟨[("Accept", [mediaType])]⟩, Body := [], ctx := .background }
      (sampleResponse 404 [123, 125])).2.1 rfl (by rfl) rfl,
   (do_returns_response (constTransport (.ok (sampleResponse 404 [123, 125])))
      (getpipeline.New (constTransport (.ok (sampleResponse 404 [123, 125]))).counting)
      (unfollow.NewUnfollowFunc (constTransport (.ok (sampleResponse 404 [123, 125]))).counting
        "logs")
      ((closepointintime.New (constTransport (.ok (sampleResponse 404 [123, 125]))).counting
        ).Request (some 3))
      sampleMarshal none () () 0
      { Method := "DELETE", URL := { Scheme := "http", Path := "/_pit", RawQuery := "" },
        Header := ⟨[("Accept", [mediaType]), ("Content-Type", [mediaType])]⟩, Body := [2],
        ctx := .background }
      (sampleResponse 404 [123, 125])).2.2 rfl (by rfl) rfl⟩

/-- C20 (as stated, fails): the body of a 200 response breaks off with a read
error, closing it succeeds, and `IsSuccess` of `GetPipeline` and of `Unfollow`
returns `(true, nil)`; with a 404 response it returns `(false, nil)`. -/
theorem isSuccess_drain_error_swallowed :
    (truncatedResponse 200).Body.discard.2 = some (GoError.new "unexpected EOF")
      ∧ ((getpipeline.New (constTransport (.ok (truncatedResponse 200)))).IsSuccess none ()).ret
        = (true, none)
      ∧ ((unfollow.NewUnfollowFunc (constTransport (.ok (truncatedResponse 200)))
          "logs").IsSuccess none ()).ret = (true, none)
      ∧ ((getpipeline.New (constTransport (.ok (truncatedResponse 404)))).IsSuccess none ()).ret
        = (false, none) := by
  refine ⟨by rfl, by rfl, by rfl, by rfl⟩

/-- C20 (amended): a failed drain of the response body is not reported by
`IsSuccess`; the result is the one after a successful drain: `(false, e)` when
closing the body fails with `e`, and otherwise `(true, nil)` for a status in
`[200, 300)` and `(false, nil)` for any other status. -/
theorem isSuccess_ignores_drain_error {σ : Type} (g : getpipeline.GetPipeline σ)
    (u : unfollow.Unfollow σ) (ctx : Option Context) (w w' : σ) (req : HttpReq)
    (res : HttpResponse) (e : GoError) :
    ((g.HttpRequest ctx).2 = .ok req → g.transport.Perform req w = (.ok res, w') →
        res.Body.discard.2 = some e →
        (g.IsSuccess ctx w).ret =
          match res.Body.closeErr with
          | some e' => (false, some e')
          | none => (decide (200 ≤ res.StatusCode ∧ res.StatusCode < 300), none))
      ∧ ((u.HttpRequest ctx).2 = .ok req → u.transport.Perform req w = (.ok res, w') →
        res.Body.discard.2 = some e →
        (u.IsSuccess ctx w).ret =
          match res.Body.closeErr with
          | some e' => (false, some e')
          | none => (decide (200 ≤ res.StatusCode ∧ res.StatusCode < 300), none)) := by
  constructor
  · intro hb hp _
    have hd : g.Do ctx w = (.ok res, w') := by
      unfold getpipeline.GetPipeline.Do
      rw [hb]; simp only [hp]
    unfold getpipeline.GetPipeline.IsSuccess
    rw [hd]
    simp only [Body.Close, Body.discard]
    cases hc : res.Body.closeErr with
    | some e' => rfl
    | none =>
      by_cases hs : 200 ≤ res.StatusCode ∧ res.StatusCode < 300
      · simp [hs]
      · rw [if_neg (by simpa using hs)]
        simp [hs]
  · intro hb hp _
    have hd : u.Do ctx w = (.ok res, w') := by
      unfold unfollow.Unfollow.Do
      rw [hb]; simp only [hp]
    unfold unfollow.Unfollow.IsSuccess
    rw [hd]
    simp only [Body.Close, Body.discard]
    cases hc : res.Body.closeErr with
    | some e' => rfl
    | none =>
      by_cases hs : 200 ≤ res.StatusCode ∧ res.StatusCode < 300
      · simp [hs]
      · rw [if_neg (by simpa using hs)]
        simp [hs]

/-- Witness of C20 (amended): a 200 response whose body breaks off, on both
endpoints. -/
theorem isSuccess_ignores_drain_error_witness :
    ((getpipeline.New (constTransport (.ok (truncatedResponse 200)))).IsSuccess none ()).ret
        = (true, none)
      ∧ ((unfollow.NewUnfollowFunc (constTransport (.ok (truncatedResponse 200)))
          "logs").IsSuccess none ()).ret = (true, none) :=
  ⟨(isSuccess_ignores_drain_error (getpipeline.New (constTransport (.ok (truncatedResponse 200))))
      (unfollow.NewUnfollowFunc (constTransport (.ok (truncatedResponse 200))) "logs") none () ()
      { Method := "GET", URL := { Scheme := "http", Path := "/_ingest/pipeline", RawQuery := "" },
        Header := ⟨[("Accept", [mediaType])]⟩, Body := [], ctx := .background }
      (truncatedResponse 200) (.new "unexpected EOF")).1 (by rfl) rfl rfl,
   (isSuccess_ignores_drain_error (getpipeline.New (constTransport (.ok (truncatedResponse 200))))
      (unfollow.NewUnfollowFunc (constTransport (.ok (truncatedResponse 200))) "logs") none () ()
      { Method := "POST", URL := { Scheme := "http", Path := "/logs/_ccr/unfollow", RawQuery := "" },
        Header := ⟨[("Accept", [mediaType])]⟩, Body := [], ctx := .background }
      (truncatedResponse 200) (.new "unexpected EOF")).2 (by rfl) rfl rfl⟩

/-! ## Claims about path resolution and rebuilding -/

namespace getpipeline

/-- C16: a `GetPipeline` configuration reached from `New` without any `Id`
call, whatever query parameters and headers were set and however often it was
built before, builds a request (no `ErrBuildPath`) with method GET and path
`/_ingest/pipeline`. -/
theorem getPipeline_without_id {σ : Type} (tp : Transport σ) (cs : List Call)
    (ctx : Option Context) (h : ∀ c ∈ cs, c.isId = false) :
    ((run (New tp) cs).HttpRequest ctx).2 ≠ .error ErrBuildPath
      ∧ (((run (New tp) cs).HttpRequest ctx).2.toOption.map fun q => (q.Method, q.URL.Path))
        = some ("GET", "/_ingest/pipeline") := by
  have hp : (run (New tp) cs).paramSet = 0 := getPipeline_run_no_id cs (New tp) h
  rw [getPipeline_HttpRequest_snd, if_pos hp]
  exact ⟨by simp, rfl⟩

/-- Witness of C16: both query parameters and two headers set, no id. -/
theorem getPipeline_without_id_witness :
    (∀ c ∈ [Call.MasterTimeout "30s", Call.Summary true, Call.Header "Accept" "text/plain",
          Call.Header "X-Opaque-Id" "7"], c.isId = false)
      ∧ (((run (New (constTransport (.error connectionRefused)))
            [Call.MasterTimeout "30s", Call.Summary true, Call.Header "Accept" "text/plain",
              Call.Header "X-Opaque-Id" "7"]).HttpRequest none).2 ≠ .error ErrBuildPath
        ∧ (((run (New (constTransport (.error connectionRefused)))
            [Call.MasterTimeout "30s", Call.Summary true, Call.Header "Accept" "text/plain",
              Call.Header "X-Opaque-Id" "7"]).HttpRequest none).2.toOption.map
              fun q => (q.Method, q.URL.Path))
          = some ("GET", "/_ingest/pipeline")) :=
  ⟨by decide, getPipeline_without_id _ _ _ (by decide)⟩

end getpipeline

namespace closepointintime

/-- C17: every `ClosePointInTime` configuration reached from `New` by `Raw`,
`Request`, `Header` (and `HttpRequest`) calls has presence flags `0`, and
`HttpRequest` never returns `ErrBuildPath` on it. It builds a request with
method DELETE and path `/_pit` whenever a raw body is set, whenever there is no
payload, and whenever `json.Marshal` accepts the payload; so it does on every
such configuration when `json.Marshal` fails on no payload. The one case without
a request is a payload, with no raw body, on which `json.Marshal` fails with
some `e`: the result is then that error with the name of the endpoint, and
every error `HttpRequest` returns arises so. -/
theorem closePointInTime_always_pit {Req σ : Type} (marshal : Req → Except GoError Bytes)
    (tp : Transport σ) (cs : List (Call Req)) (ctx : Option Context) :
    (run marshal (New tp) cs).paramSet = 0
      ∧ ((run marshal (New tp) cs).HttpRequest marshal ctx).2 ≠ .error ErrBuildPath
      ∧ (∀ raw, (run marshal (New tp) cs).raw = some raw →
          (((run marshal (New tp) cs).HttpRequest marshal ctx).2.toOption.map
            fun q => (q.Method, q.URL.Path)) = some ("DELETE", "/_pit"))
      ∧ ((run marshal (New tp) cs).req = none →
          (((run marshal (New tp) cs).HttpRequest marshal ctx).2.toOption.map
            fun q => (q.Method, q.URL.Path)) = some ("DELETE", "/_pit"))
      ∧ (∀ p data, (run marshal (New tp) cs).req = some p → marshal p = .ok data →
          (((run marshal (New tp) cs).HttpRequest marshal ctx).2.toOption.map
            fun q => (q.Method, q.URL.Path)) = some ("DELETE", "/_pit"))
      ∧ ((∀ p, ∃ data, marshal p = .ok data) →
          (((run marshal (New tp) cs).HttpRequest marshal ctx).2.toOption.map
            fun q => (q.Method, q.URL.Path)) = some ("DELETE", "/_pit"))
      ∧ (∀ p e, (run marshal (New tp) cs).raw = none → (run marshal (New tp) cs).req = some p →
          marshal p = .error e →
          ((run marshal (New tp) cs).HttpRequest marshal ctx).2
            = .error (.errorf "could not serialise request for ClosePointInTime: " e))
      ∧ (∀ err, ((run marshal (New tp) cs).HttpRequest marshal ctx).2 = .error err →
          ∃ p e, (run marshal (New tp) cs).raw = none ∧ (run marshal (New tp) cs).req = some p
            ∧ marshal p = .error e
            ∧ err = .errorf "could not serialise request for ClosePointInTime: " e) := by
  have hp : (run marshal (New tp) cs).paramSet = 0 :=
    closePointInTime_run_paramSet marshal cs (New tp)
  -- a written body gives a DELETE request on `/_pit`
  have hok : ∀ r1, ClosePointInTime.writeBody marshal (run marshal (New tp) cs) = .ok r1 →
      (((run marshal (New tp) cs).HttpRequest marshal ctx).2.toOption.map
        fun q => (q.Method, q.URL.Path)) = some ("DELETE", "/_pit") := by
    intro r1 hw
    rw [closePointInTime_HttpRequest_of_writeBody marshal _ r1 ctx hw,
      if_pos ((closePointInTime_writeBody_fields marshal _ r1 hw).2.1.trans hp)]
    rfl
  -- every error is the serialisation error of the payload
  have herr : ∀ err, ((run marshal (New tp) cs).HttpRequest marshal ctx).2 = .error err →
      ∃ p e, (run marshal (New tp) cs).raw = none ∧ (run marshal (New tp) cs).req = some p
        ∧ marshal p = .error e
        ∧ err = .errorf "could not serialise request for ClosePointInTime: " e := by
    intro err h
    cases hw : ClosePointInTime.writeBody marshal (run marshal (New tp) cs) with
    | ok r1 =>
      have := hok r1 hw
      rw [h] at this
      cases this
    | error err1 =>
      rw [closePointInTime_HttpRequest_of_writeBody_error marshal _ ctx err1 hw] at h
      cases h
      unfold ClosePointInTime.writeBody at hw
      cases hraw : (run marshal (New tp) cs).raw with
      | some raw => rw [hraw] at hw; cases hw
      | none =>
        cases hreq : (run marshal (New tp) cs).req with
        | none => rw [hraw, hreq] at hw; cases hw
        | some p =>
          cases hm : marshal p with
          | ok data => rw [hraw, hreq] at hw; simp only [hm] at hw; cases hw
          | error e =>
            rw [hraw, hreq] at hw
            simp only [hm] at hw
            cases hw
            exact ⟨p, e, rfl, rfl, hm, rfl⟩
  -- without a failing payload the body is written
  have hbuilt : (∀ p e, (run marshal (New tp) cs).raw = none →
      (run marshal (New tp) cs).req = some p → marshal p = .error e → False) →
      (((run marshal (New tp) cs).HttpRequest marshal ctx).2.toOption.map
        fun q => (q.Method, q.URL.Path)) = some ("DELETE", "/_pit") := by
    intro hno
    cases hw : ClosePointInTime.writeBody marshal (run marshal (New tp) cs) with
    | ok r1 => exact hok r1 hw
    | error err1 =>
      obtain ⟨p, e, h1, h2, h3, _⟩ :=
        herr err1 (by rw [closePointInTime_HttpRequest_of_writeBody_error marshal _ ctx err1 hw])
      exact (hno p e h1 h2 h3).elim
  have hraw : ∀ raw, (run marshal (New tp) cs).raw = some raw →
      (((run marshal (New tp) cs).HttpRequest marshal ctx).2.toOption.map
        fun q => (q.Method, q.URL.Path)) = some ("DELETE", "/_pit") := by
    intro raw h
    apply hbuilt
    intro p e h1 _ _
    rw [h] at h1
    cases h1
  have hnone : (run marshal (New tp) cs).req = none →
      (((run marshal (New tp) cs).HttpRequest marshal ctx).2.toOption.map
        fun q => (q.Method, q.URL.Path)) = some ("DELETE", "/_pit") := by
    intro h
    apply hbuilt
    intro p e _ h2 _
    rw [h] at h2
    cases h2
  have hsome : ∀ p data, (run marshal (New tp) cs).req = some p → marshal p = .ok data →
      (((run marshal (New tp) cs).HttpRequest marshal ctx).2.toOption.map
        fun q => (q.Method, q.URL.Path)) = some ("DELETE", "/_pit") := by
    intro p data h hm
    apply hbuilt
    intro p1 e _ h2 h3
    rw [h] at h2
    cases h2
    rw [hm] at h3
    cases h3
  refine ⟨hp, ?_, hraw, hnone, hsome, ?_, ?_, herr⟩
  · intro h
    obtain ⟨p, e, _, _, _, he⟩ := herr _ h
    simp [ErrBuildPath] at he
  · intro htotal
    cases hq : (run marshal (New tp) cs).req with
    | none => exact hnone hq
    | some p =>
      obtain ⟨data, hd⟩ := htotal p
      exact hsome p data hq hd
  · intro p e hr hq hm
    have hw : ClosePointInTime.writeBody marshal (run marshal (New tp) cs)
        = .error (.errorf "could not serialise request for ClosePointInTime: " e) := by
      unfold ClosePointInTime.writeBody
      rw [hr, hq]
      simp only [hm]
    rw [closePointInTime_HttpRequest_of_writeBody_error marshal _ ctx _ hw]

/-- Witness of C17: after a header, an unserialisable payload, a raw body and a
build, the raw body is taken away and the payload replaced by a serialisable
one; with the raw body the build gave DELETE `/_pit` although the payload
could not be serialised, and so does the build at the end. The untouched
configuration builds DELETE `/_pit` too; the unserialisable payload alone
gives the serialisation error. -/
theorem closePointInTime_always_pit_witness :
    ((((run sampleMarshal (New (constTransport (.error connectionRefused)))
          [Call.Header "X-Opaque-Id" "7", Call.Request (some 0), Call.Raw (some [123, 125]),
            Call.HttpRequest none, Call.Raw none, Call.Request (some 3)]).HttpRequest
          sampleMarshal none).2.toOption.map fun q => (q.Method, q.URL.Path))
        = some ("DELETE", "/_pit"))
      ∧ ((((run sampleMarshal (New (constTransport (.error connectionRefused)))
          [Call.Header "X-Opaque-Id" "7", Call.Request (some 0),
            Call.Raw (some [123, 125])]).HttpRequest
          sampleMarshal none).2.toOption.map fun q => (q.Method, q.URL.Path))
        = some ("DELETE", "/_pit"))
      ∧ ((((run sampleMarshal (New (constTransport (.error connectionRefused)))
          ([] : List (Call Nat))).HttpRequest
          sampleMarshal none).2.toOption.map fun q => (q.Method, q.URL.Path))
        = some ("DELETE", "/_pit"))
      ∧ ((run sampleMarshal (New (constTransport (.error connectionRefused)))
          [Call.Request (some 0)]).HttpRequest sampleMarshal none).2
        = .error (.errorf "could not serialise request for ClosePointInTime: "
            (.new "json: unsupported value")) :=
  ⟨(closePointInTime_always_pit sampleMarshal (constTransport (.error connectionRefused))
      [Call.Header "X-Opaque-Id" "7", Call.Request (some 0), Call.Raw (some [123, 125]),
        Call.HttpRequest none, Call.Raw none, Call.Request (some 3)] none).2.2.2.2.1
      3 [2] rfl rfl,
   (closePointInTime_always_pit sampleMarshal (constTransport (.error connectionRefused))
      [Call.Header "X-Opaque-Id" "7", Call.Request (some 0), Call.Raw (some [123, 125])]
      none).2.2.1 [123, 125] rfl,
   (closePointInTime_always_pit sampleMarshal (constTransport (.error connectionRefused))
      [] none).2.2.2.1 rfl,
   (closePointInTime_always_pit sampleMarshal (constTransport (.error connectionRefused))
      [Call.Request (some 0)] none).2.2.2.2.2.2.1 0 (.new "json: unsupported value")
      rfl rfl rfl⟩

/-- C18 (fails on the code): `HttpRequest` appends the body to the buffer of
the configuration at every call. With the raw body `[123, 125]` the first build
gives a request with body `[123, 125]`, the second build on the same
configuration gives the body `[123, 125, 123, 125]`; the same happens with a
payload. Method, path, query and headers are the same in both builds. -/
theorem closePointInTime_second_build_doubles_body :
    (((New (constTransport (.error connectionRefused))).Raw (some [123, 125])).HttpRequest
          sampleMarshal none).2
        = .ok { Method := "DELETE", URL := { Scheme := "http", Path := "/_pit", RawQuery := "" },
                Header := ⟨[("Accept", [mediaType]), ("Content-Type", [mediaType])]⟩,
                Body := [123, 125], ctx := .background }
      ∧ (((((New (constTransport (.error connectionRefused))).Raw (some [123, 125])).HttpRequest
            sampleMarshal none).1).HttpRequest sampleMarshal none).2
        = .ok { Method := "DELETE", URL := { Scheme := "http", Path := "/_pit", RawQuery := "" },
                Header := ⟨[("Accept", [mediaType]), ("Content-Type", [mediaType])]⟩,
                Body := [123, 125, 123, 125], ctx := .background }
      ∧ ((((((New (constTransport (.error connectionRefused))).Request (some 3)).HttpRequest
            sampleMarshal none).1).HttpRequest sampleMarshal none).2.toOption.map
              fun q => q.Body) = some [2, 2] := by
  refine ⟨by rfl, by rfl, by rfl⟩

end closepointintime

namespace revertmodelsnapshot

/-- C19: for every `Request` (field nil, pointer to true, pointer to false)
and every receiver, `FromJSON` of the JSON serialisation of the request
succeeds and returns a request equal to it. -/
theorem request_fromJSON_marshal (rb : Option Request) (r : Request) :
    Request.FromJSON rb (Marshal r) = .ok r := by
  obtain ⟨d⟩ := r
  cases d with
  | none => rfl
  | some b => cases b <;> rfl

end revertmodelsnapshot

/-! ## Claims about the release of the response body -/

/-- C21: when `Do` hands a response to `IsSuccess`, the body of the response
has been closed exactly once more when `IsSuccess` returns, whatever the
status code and whether or not closing fails; when `Do` returns an error, no
body is closed (there is none). -/
theorem isSuccess_closes_once {σ : Type} (g : getpipeline.GetPipeline σ)
    (u : unfollow.Unfollow σ) (ctx : Option Context) (w : σ) :
    (∀ res, (g.Do ctx w).1 = .ok res →
        (g.IsSuccess ctx w).body
          = some { res.Body with data := [], closeCalls := res.Body.closeCalls + 1 })
      ∧ (∀ e, (g.Do ctx w).1 = .error e → (g.IsSuccess ctx w).body = none)
      ∧ (∀ res, (u.Do ctx w).1 = .ok res →
        (u.IsSuccess ctx w).body
          = some { res.Body with data := [], closeCalls := res.Body.closeCalls + 1 })
      ∧ (∀ e, (u.Do ctx w).1 = .error e → (u.IsSuccess ctx w).body = none) := by
  refine ⟨?_, ?_, ?_, ?_⟩
  · intro res hd
    unfold getpipeline.GetPipeline.IsSuccess
    cases hD : g.Do ctx w with
    | mk r w' =>
      rw [hD] at hd
      simp only at hd
      subst hd
      simp only [Body.Close, Body.discard]
      cases res.Body.closeErr with
      | some e => rfl
      | none => simp only; split_ifs <;> rfl
  · intro e hd
    unfold getpipeline.GetPipeline.IsSuccess
    cases hD : g.Do ctx w with
    | mk r w' =>
      rw [hD] at hd
      simp only at hd
      subst hd
      rfl
  · intro res hd
    unfold unfollow.Unfollow.IsSuccess
    cases hD : u.Do ctx w with
    | mk r w' =>
      rw [hD] at hd
      simp only at hd
      subst hd
      simp only [Body.Close, Body.discard]
      cases res.Body.closeErr with
      | some e => rfl
      | none => simp only; split_ifs <;> rfl
  · intro e hd
    unfold unfollow.Unfollow.IsSuccess
    cases hD : u.Do ctx w with
    | mk r w' =>
      rw [hD] at hd
      simp only at hd
      subst hd
      rfl

/-- Witness of C21: a 200 answer, a 404 answer whose body fails to close, and a
refused connection. -/
theorem isSuccess_closes_once_witness :
    (((getpipeline.New (constTransport (.ok (sampleResponse 200 [123, 125])))).IsSuccess
          none ()).body.map fun b => b.closeCalls) = some 1
      ∧ (((unfollow.NewUnfollowFunc (constTransport (.ok
            { StatusCode := 404, Body := { data := [1], closeErr := some connectionRefused } }))
          "logs").IsSuccess none ()).body.map fun b => b.closeCalls) = some 1
      ∧ ((getpipeline.New (constTransport (.error connectionRefused))).IsSuccess none ()).body
        = none
      ∧ ((unfollow.New (constTransport (.ok (sampleResponse 200 [])))).IsSuccess none ()).body
        = none :=
  ⟨congrArg (Option.map fun b => b.closeCalls)
      ((isSuccess_closes_once (getpipeline.New (constTransport (.ok (sampleResponse 200 [123, 125]))))
        (unfollow.New (constTransport (.ok (sampleResponse 200 [123, 125])))) none ()).1
        (sampleResponse 200 [123, 125]) rfl),
   congrArg (Option.map fun b => b.closeCalls)
      ((isSuccess_closes_once (getpipeline.New (constTransport (.ok
          { StatusCode := 404, Body := { data := [1], closeErr := some connectionRefused } })))
        (unfollow.NewUnfollowFunc (constTransport (.ok
          { StatusCode := 404, Body := { data := [1], closeErr := some connectionRefused } }))
          "logs") none ()).2.2.1
        { StatusCode := 404, Body := { data := [1], closeErr := some connectionRefused } } rfl),
   (isSuccess_closes_once (getpipeline.New (constTransport (.error connectionRefused)))
      (unfollow.New (constTransport (.error connectionRefused))) none ()).2.1
      (.errorf "an error happened during the GetPipeline query execution: " connectionRefused)
      rfl,
   (isSuccess_closes_once (getpipeline.New (constTransport (.ok (sampleResponse 200 []))))
      (unfollow.New (constTransport (.ok (sampleResponse 200 [])))) none ()).2.2.2
      unfollow.ErrBuildPath rfl⟩

/-- C22: when `Do` hands over a response and closing its body fails with `e`,
`IsSuccess` returns `(false, e)` for every status code, so never `(true, nil)`. -/
theorem isSuccess_close_error {σ : Type} (g : getpipeline.GetPipeline σ)
    (u : unfollow.Unfollow σ) (ctx : Option Context) (w : σ) (res : HttpResponse)
    (e : GoError) :
    ((g.Do ctx w).1 = .ok res → res.Body.closeErr = some e →
        (g.IsSuccess ctx w).ret = (false, some e))
      ∧ ((u.Do ctx w).1 = .ok res → res.Body.closeErr = some e →
        (u.IsSuccess ctx w).ret = (false, some e)) := by
  constructor
  · intro hd hc
    unfold getpipeline.GetPipeline.IsSuccess
    cases hD : g.Do ctx w with
    | mk r w' =>
      rw [hD] at hd
      simp only at hd
      subst hd
      simp only [Body.Close, Body.discard, hc]
  · intro hd hc
    unfold unfollow.Unfollow.IsSuccess
    cases hD : u.Do ctx w with
    | mk r w' =>
      rw [hD] at hd
      simp only at hd
      subst hd
      simp only [Body.Close, Body.discard, hc]

/-- Witness of C22: a 200 answer whose body fails to close, on both endpoints. -/
theorem isSuccess_close_error_witness :
    ((getpipeline.New (constTransport (.ok
          { StatusCode := 200, Body := { data := [1], closeErr := some connectionRefused } }))
        ).IsSuccess none ()).ret = (false, some connectionRefused)
      ∧ ((unfollow.NewUnfollowFunc (constTransport (.ok
          { StatusCode := 200, Body := { data := [1], closeErr := some connectionRefused } }))
          "logs").IsSuccess none ()).ret = (false, some connectionRefused) :=
  ⟨(isSuccess_close_error (getpipeline.New (constTransport (.ok
        { StatusCode := 200, Body := { data := [1], closeErr := some connectionRefused } })))
      (unfollow.NewUnfollowFunc (constTransport (.ok
        { StatusCode := 200, Body := { data := [1], closeErr := some connectionRefused } }))
        "logs") none ()
      { StatusCode := 200, Body := { data := [1], closeErr := some connectionRefused } }
      connectionRefused).1 rfl rfl,
   (isSuccess_close_error (getpipeline.New (constTransport (.ok
        { StatusCode := 200, Body := { data := [1], closeErr := some connectionRefused } })))
      (unfollow.NewUnfollowFunc (constTransport (.ok
        { StatusCode := 200, Body := { data := [1], closeErr := some connectionRefused } }))
        "logs") none ()
      { StatusCode := 200, Body := { data := [1], closeErr := some connectionRefused } }
      connectionRefused).2 rfl rfl⟩

/-! ## Claims about the setters -/

namespace getpipeline

/-- The presence flags of a configuration reached from `New` are `0` or
`idMask`. -/
theorem getPipeline_run_paramSet_range {σ : Type} (cs : List Call) (r : GetPipeline σ)
    (h0 : r.paramSet = 0 ∨ r.paramSet = idMask) :
    (run r cs).paramSet = 0 ∨ (run r cs).paramSet = idMask := by
  induction cs generalizing r with
  | nil => exact h0
  | cons c cs ih =>
    rw [getPipeline_run_cons]
    apply ih
    cases c with
    | Id v =>
      right
      rcases h0 with h | h <;> simp [Call.apply, GetPipeline.Id, h, idMask]
    | MasterTimeout value => exact h0
    | Summary b => exact h0
    | Header key value => exact h0
    | HttpRequest ctx =>
      simpa [Call.apply, (getPipeline_HttpRequest_fst r ctx).1] using h0

end getpipeline

/-- C23: on every configuration, `Id(a)` followed by `Id(b)` leaves the same
state as `Id(b)` alone, and `Index(a)` followed by `Index(b)` the same state as
`Index(b)` alone; on a configuration reached from `New` that state has the
presence flags equal to the mask of the parameter and the parameter equal to
`b`. -/
theorem path_parameter_set_twice {σ : Type} (tp : Transport σ)
    (g : getpipeline.GetPipeline σ) (u : unfollow.Unfollow σ) (gs : List getpipeline.Call)
    (us : List unfollow.Call) (a b : String) :
    (g.Id a).Id b = g.Id b
      ∧ (u.Index a).Index b = u.Index b
      ∧ (((getpipeline.run (getpipeline.New tp) gs).Id a).Id b).paramSet = getpipeline.idMask
      ∧ (((getpipeline.run (getpipeline.New tp) gs).Id a).Id b).id = b
      ∧ (((unfollow.run (unfollow.New tp) us).Index a).Index b).paramSet = unfollow.indexMask
      ∧ (((unfollow.run (unfollow.New tp) us).Index a).Index b).index = b := by
  have hor : ∀ p m : Nat, (p ||| m) ||| m = p ||| m := by
    intro p m
    rw [Nat.or_assoc, Nat.or_self]
  refine ⟨?_, ?_, ?_, rfl, ?_, rfl⟩
  · simp [getpipeline.GetPipeline.Id, hor]
  · simp [unfollow.Unfollow.Index, hor]
  · have h := getpipeline.getPipeline_run_paramSet_range gs (getpipeline.New tp) (Or.inl rfl)
    rcases h with h | h <;>
      simp [getpipeline.GetPipeline.Id, h, getpipeline.idMask]
  · have h := unfollow.unfollow_run_paramSet us (unfollow.New tp) (Or.inl rfl)
    have h' : (unfollow.run (unfollow.New tp) us).paramSet = 0
        ∨ (unfollow.run (unfollow.New tp) us).paramSet = unfollow.indexMask := by
      rw [h]; split_ifs
      · exact Or.inr rfl
      · exact Or.inl rfl
    rcases h' with h' | h' <;>
      simp [unfollow.Unfollow.Index, h', unfollow.indexMask]

namespace getpipeline

/-- C25: on every configuration, after `MasterTimeout(a)` then
`MasterTimeout(b)` the query mapping holds `[b]` under `master_timeout`, and
after `Summary(x)` it holds `["true"]` or `["false"]` under `summary` according
to `x`, at once and not only when the request is built; every other key of the
mapping, the presence flags, the id and the headers are as before. -/
theorem getPipeline_query_setters {σ : Type} (r : GetPipeline σ) (a b : String) (x : Bool) :
    StrMap.get? "master_timeout" ((r.MasterTimeout a).MasterTimeout b).values.entries
        = some [b]
      ∧ (∀ k, k ≠ "master_timeout" →
        StrMap.get? k ((r.MasterTimeout a).MasterTimeout b).values.entries
          = StrMap.get? k r.values.entries)
      ∧ ((r.MasterTimeout a).MasterTimeout b).paramSet = r.paramSet
      ∧ ((r.MasterTimeout a).MasterTimeout b).id = r.id
      ∧ ((r.MasterTimeout a).MasterTimeout b).headers = r.headers
      ∧ StrMap.get? "summary" (r.Summary x).values.entries
        = some [if x = true then "true" else "false"]
      ∧ (∀ k, k ≠ "summary" →
        StrMap.get? k (r.Summary x).values.entries = StrMap.get? k r.values.entries)
      ∧ (r.Summary x).paramSet = r.paramSet
      ∧ (r.Summary x).id = r.id
      ∧ (r.Summary x).headers = r.headers := by
  refine ⟨?_, ?_, rfl, rfl, rfl, ?_, ?_, rfl, rfl, rfl⟩
  · simp [GetPipeline.MasterTimeout, Values.Set, StrMap.get?_set]
  · intro k hk
    simp [GetPipeline.MasterTimeout, Values.Set, StrMap.get?_set, hk]
  · simp [GetPipeline.Summary, Values.Set, StrMap.get?_set, FormatBool]
  · intro k hk
    simp [GetPipeline.Summary, Values.Set, StrMap.get?_set, hk]

end getpipeline

/-! ## Lemmas: the query mapping of `getpipeline` -/

namespace getpipeline

variable {σ : Type}

theorem set_masterTimeout_entries (mt : Option String) (s : Option Bool) (v : String) :
    StrMap.set "master_timeout" [v] (entriesOf (pairsOf mt s))
      = entriesOf (pairsOf (some v) s) := by
  have h1 : "master_timeout".data < "summary".data := by decide
  have h3 : ¬ "master_timeout".data < "master_timeout".data := by decide
  cases mt <;> cases s <;> simp [StrMap.set, entriesOf, pairsOf, h1, h3]

theorem set_summary_entries (mt : Option String) (s : Option Bool) (b : Bool) :
    StrMap.set "summary" [FormatBool b] (entriesOf (pairsOf mt s))
      = entriesOf (pairsOf mt (some b)) := by
  have h2 : ¬ "summary".data < "master_timeout".data := by decide
  have h4 : ¬ "summary".data < "summary".data := by decide
  have h5 : ¬ "summary" = "master_timeout" := by decide
  cases mt <;> cases s <;> simp [StrMap.set, entriesOf, pairsOf, h2, h4, h5]

/-- The query mapping after a sequence of calls, when it held the pairs of
`(mt, s)` before: the last value of each setter wins. -/
theorem getPipeline_run_values (cs : List Call) (r : GetPipeline σ) (mt : Option String)
    (s : Option Bool) (h : r.values.entries = entriesOf (pairsOf mt s)) :
    (run r cs).values.entries
      = entriesOf (pairsOf ((lastMasterTimeout cs).orElse fun _ => mt)
          ((lastSummary cs).orElse fun _ => s)) := by
  induction cs generalizing r mt s with
  | nil => simpa [run, lastMasterTimeout, lastSummary] using h
  | cons c cs ih =>
    rw [getPipeline_run_cons]
    cases c with
    | Id v =>
      rw [ih (Call.apply r (.Id v)) mt s h]
      cases hm : lastMasterTimeout cs <;> cases hs : lastSummary cs <;>
        simp [lastMasterTimeout, lastSummary, hm, hs]
    | Header key value =>
      rw [ih (Call.apply r (.Header key value)) mt s h]
      cases hm : lastMasterTimeout cs <;> cases hs : lastSummary cs <;>
        simp [lastMasterTimeout, lastSummary, hm, hs]
    | HttpRequest ctx =>
      rw [ih (Call.apply r (.HttpRequest ctx)) mt s
        (by simpa [Call.apply, (getPipeline_HttpRequest_fst r ctx).2.2.2] using h)]
      cases hm : lastMasterTimeout cs <;> cases hs : lastSummary cs <;>
        simp [lastMasterTimeout, lastSummary, hm, hs]
    | MasterTimeout value =>
      rw [ih (Call.apply r (.MasterTimeout value)) (some value) s
        (by
          simp only [Call.apply, GetPipeline.MasterTimeout, Values.Set, h]
          exact set_masterTimeout_entries mt s value)]
      cases hm : lastMasterTimeout cs <;> cases hs : lastSummary cs <;>
        simp [lastMasterTimeout, lastSummary, hm, hs]
    | Summary b =>
      rw [ih (Call.apply r (.Summary b)) mt (some b)
        (by
          simp only [Call.apply, GetPipeline.Summary, Values.Set, h]
          exact set_summary_entries mt s b)]
      cases hm : lastMasterTimeout cs <;> cases hs : lastSummary cs <;>
        simp [lastMasterTimeout, lastSummary, hm, hs]

/-- The query mapping of a configuration reached from `New` holds the pairs
that the calls accumulated. -/
theorem getPipeline_values_entries (tp : Transport σ) (cs : List Call) :
    (run (New tp) cs).values.entries = entriesOf (queryPairs cs) := by
  rw [getPipeline_run_values cs (New tp) none none rfl]
  unfold queryPairs
  cases lastMasterTimeout cs <;> cases lastSummary cs <;> rfl

end getpipeline

namespace getpipeline

variable {σ : Type}

theorem item_ne_empty (k v : String) : "" ++ k ++ "=" ++ v ≠ "" := by
  intro h
  have := congrArg String.length h
  simp at this
  exact absurd this.1.2 (by decide)

/-- The encoding of the query mapping that holds the pairs of `(mt, s)` is the
query string of the specification for these pairs. -/
theorem Encode_pairsOf (mt : Option String) (s : Option Bool) :
    Values.Encode ⟨entriesOf (pairsOf mt s)⟩ = specQuery (pairsOf mt s) := by
  cases mt with
  | none =>
    cases s with
    | none => rfl
    | some b =>
      simp only [Values.Encode, entriesOf, pairsOf, specQuery, List.map, List.nil_append,
        List.foldl, Values.encodeKey, String.intercalate, String.intercalate.go]
      apply String.ext
      simp [String.data_append]
  | some a =>
    cases s with
    | none =>
      simp only [Values.Encode, entriesOf, pairsOf, specQuery, List.map, List.append_nil,
        List.foldl, Values.encodeKey, String.intercalate, String.intercalate.go]
      apply String.ext
      simp [String.data_append]
    | some b =>
      simp only [Values.Encode, entriesOf, pairsOf, specQuery, List.map, List.cons_append,
        List.nil_append, List.foldl, Values.encodeKey, String.intercalate,
        String.intercalate.go]
      have e0 : (if "" ≠ "" then "" ++ "&" else "") = "" := by decide
      rw [e0, if_pos (item_ne_empty _ _)]
      apply String.ext
      simp [String.data_append]

end getpipeline

namespace getpipeline

/-- On the query mapping of a configuration reached from `New`, the two query
setters commute and leave the pairs of their two values. -/
theorem getPipeline_values_set_both {σ : Type} (tp : Transport σ) (cs : List Call)
    (m : String) (s : Bool) :
    ((run (New tp) cs).values.Set "master_timeout" m).Set "summary" (FormatBool s)
        = ⟨entriesOf (pairsOf (some m) (some s))⟩
      ∧ ((run (New tp) cs).values.Set "summary" (FormatBool s)).Set "master_timeout" m
        = ⟨entriesOf (pairsOf (some m) (some s))⟩ := by
  have h := getPipeline_values_entries tp cs
  unfold queryPairs at h
  constructor
  · simp only [Values.Set, h, set_masterTimeout_entries, set_summary_entries]
  · simp only [Values.Set, h, set_masterTimeout_entries, set_summary_entries]

/-- C24: on a configuration reached from `New`, the calls `Id(i)`,
`MasterTimeout(m)` and `Summary(s)` give the same configuration in each of
their six orders, and so the same request: GET on `/_ingest/pipeline/` followed
by `i`, with the query `master_timeout=m&summary=s` (escaped). -/
theorem getPipeline_setters_commute {σ : Type} (tp : Transport σ) (cs : List Call)
    (i m : String) (s : Bool) (ctx : Option Context) :
    (((run (New tp) cs).Id i).Summary s).MasterTimeout m
        = (((run (New tp) cs).Id i).MasterTimeout m).Summary s
      ∧ (((run (New tp) cs).MasterTimeout m).Id i).Summary s
        = (((run (New tp) cs).Id i).MasterTimeout m).Summary s
      ∧ (((run (New tp) cs).MasterTimeout m).Summary s).Id i
        = (((run (New tp) cs).Id i).MasterTimeout m).Summary s
      ∧ (((run (New tp) cs).Summary s).Id i).MasterTimeout m
        = (((run (New tp) cs).Id i).MasterTimeout m).Summary s
      ∧ (((run (New tp) cs).Summary s).MasterTimeout m).Id i
        = (((run (New tp) cs).Id i).MasterTimeout m).Summary s
      ∧ ((((((run (New tp) cs).Id i).MasterTimeout m).Summary s).HttpRequest ctx).2.toOption.map
          fun q => (q.Method, q.URL.Path, q.URL.RawQuery))
        = some ("GET", "/_ingest/pipeline/" ++ i,
            specQuery [("master_timeout", m), ("summary", FormatBool s)]) := by
  have hv := getPipeline_values_set_both tp cs m s
  have hc : ((run (New tp) cs).values.Set "summary" (FormatBool s)).Set "master_timeout" m
      = ((run (New tp) cs).values.Set "master_timeout" m).Set "summary" (FormatBool s) := by
    rw [hv.1, hv.2]
  refine ⟨?_, rfl, rfl, ?_, ?_, ?_⟩
  · simp only [GetPipeline.Id, GetPipeline.Summary, GetPipeline.MasterTimeout, hc]
  · simp only [GetPipeline.Id, GetPipeline.Summary, GetPipeline.MasterTimeout, hc]
  · simp only [GetPipeline.Id, GetPipeline.Summary, GetPipeline.MasterTimeout, hc]
  · have hp : ((((run (New tp) cs).Id i).MasterTimeout m).Summary s).paramSet = idMask := by
      rcases getPipeline_run_paramSet_range cs (New tp) (Or.inl rfl) with h | h <;>
        simp [GetPipeline.Id, GetPipeline.Summary, GetPipeline.MasterTimeout, h, idMask]
    have h0 : ¬ idMask = 0 := by decide
    rw [getPipeline_HttpRequest_snd, hp, if_neg h0, if_pos rfl]
    simp only [Except.toOption, Option.map, GetPipeline.Id, GetPipeline.Summary,
      GetPipeline.MasterTimeout, hv.1]
    rw [Encode_pairsOf]
    rfl

/-- The query string of the specification for the pairs of `(mt, s)`, written
out: the keys need no escape, the value of `master_timeout` is escaped. -/
theorem specQuery_pairsOf (mt : Option String) (s : Option Bool) :
    specQuery (pairsOf mt s)
      = match mt, s with
        | none, none => ""
        | some m, none => "master_timeout=" ++ QueryEscape m
        | none, some b => "summary=" ++ FormatBool b
        | some m, some b => "master_timeout=" ++ QueryEscape m ++ "&summary=" ++ FormatBool b := by
  have hk : QueryEscape "master_timeout" = "master_timeout" := by decide
  have hs : QueryEscape "summary" = "summary" := by decide
  have hb : ∀ b, QueryEscape (FormatBool b) = FormatBool b := by decide
  cases mt <;> cases s <;>
    simp only [specQuery, pairsOf, List.map, List.nil_append, List.append_nil, List.cons_append,
      String.intercalate, String.intercalate.go, hk, hs, hb] <;>
    first
      | rfl
      | (apply String.ext; simp [String.data_append])

/-- C26: on a configuration reached from `New`, with an id or without, the
query string of the built URL is the encoding of the query mapping, and that
is the query string of the specification for the accumulated pairs, which are
in the order of their keys; adding an id changes the path and not the query;
without any query parameter the query string is empty. Written out, the query
string is `master_timeout=` with the escaped value, `summary=` with `true` or
`false`, or both joined by `&`. Escaping is that of `url.QueryEscape`: the
escaped text holds unreserved characters, `%` and `+` only, hence none of `&`,
`=`, `;`, `#`, `?`, `/` and no space, and `url.QueryUnescape` gives the bytes of
the text back. So the query string holds one `=` for each pair and one `&`
between two pairs. -/
theorem getPipeline_query_encoded {σ : Type} (tp : Transport σ) (cs : List Call) (v : String)
    (ctx : Option Context) :
    (((run (New tp) cs).HttpRequest ctx).2.toOption.map fun q => q.URL.RawQuery)
        = some (run (New tp) cs).values.Encode
      ∧ ((((run (New tp) cs).Id v).HttpRequest ctx).2.toOption.map
          fun q => (q.URL.Path, q.URL.RawQuery))
        = some ("/_ingest/pipeline/" ++ v, (run (New tp) cs).values.Encode)
      ∧ (run (New tp) cs).values.Encode = specQuery (queryPairs cs)
      ∧ (queryPairs cs).Pairwise (fun p q => p.1.data < q.1.data)
      ∧ (lastMasterTimeout cs = none → lastSummary cs = none →
          (run (New tp) cs).values.Encode = "")
      ∧ (run (New tp) cs).values.Encode
        = (match lastMasterTimeout cs, lastSummary cs with
          | none, none => ""
          | some m, none => "master_timeout=" ++ QueryEscape m
          | none, some b => "summary=" ++ FormatBool b
          | some m, some b =>
            "master_timeout=" ++ QueryEscape m ++ "&summary=" ++ FormatBool b)
      ∧ (∀ s : String, ∀ ch ∈ (QueryEscape s).data, queryComponentChar ch = true
          ∧ ch ≠ '&' ∧ ch ≠ '=' ∧ ch ≠ ';' ∧ ch ≠ '#' ∧ ch ≠ '?' ∧ ch ≠ '/' ∧ ch ≠ ' ')
      ∧ (∀ s : String, QueryUnescape (QueryEscape s) = some (utf8Bytes s))
      ∧ (run (New tp) cs).values.Encode.data.count '=' = (queryPairs cs).length
      ∧ (run (New tp) cs).values.Encode.data.count '&' = (queryPairs cs).length - 1 := by
  have hr := getPipeline_run_paramSet_range cs (New tp) (Or.inl rfl)
  have h0 : ¬ idMask = 0 := by decide
  have he : (run (New tp) cs).values.Encode = specQuery (queryPairs cs) := by
    have h := getPipeline_values_entries tp cs
    have : (run (New tp) cs).values = ⟨entriesOf (queryPairs cs)⟩ := by
      cases hvv : (run (New tp) cs).values with
      | mk e => rw [hvv] at h; simp only at h; rw [h]
    rw [this]
    exact Encode_pairsOf _ _
  have hc : ∀ (m : String) (ch : Char), queryComponentChar ch = false →
      (QueryEscape m).data.count ch = 0 := fun m ch h => count_QueryEscape m ch h
  refine ⟨?_, ?_, he, ?_, ?_, ?_, ?_, QueryUnescape_QueryEscape, ?_, ?_⟩
  · rw [getPipeline_HttpRequest_snd]
    rcases hr with h | h
    · rw [if_pos h]; rfl
    · rw [h, if_neg h0, if_pos rfl]; rfl
  · have hp : ((run (New tp) cs).Id v).paramSet = idMask := by
      rcases hr with h | h <;> simp [GetPipeline.Id, h, idMask]
    rw [getPipeline_HttpRequest_snd, hp, if_neg h0, if_pos rfl]
    rfl
  · unfold queryPairs pairsOf
    cases lastMasterTimeout cs <;> cases lastSummary cs <;> simp
    decide
  · intro hm hs
    rw [he]
    unfold queryPairs
    rw [hm, hs]
    rfl
  · rw [he]
    exact specQuery_pairsOf _ _
  · intro s ch h
    exact ⟨QueryEscape_chars s ch h, QueryEscape_no_separator s ch h⟩
  · rw [he]
    unfold queryPairs
    rw [specQuery_pairsOf]
    cases lastMasterTimeout cs with
    | none =>
      cases lastSummary cs with
      | none => rfl
      | some b => cases b <;> decide
    | some m =>
      cases lastSummary cs with
      | none =>
        simp only [String.data_append, List.count_append, hc m '=' (by decide), pairsOf]
        rfl
      | some b =>
        cases b <;>
        · simp only [String.data_append, List.count_append, hc m '=' (by decide), pairsOf,
            FormatBool]
          rfl
  · rw [he]
    unfold queryPairs
    rw [specQuery_pairsOf]
    cases lastMasterTimeout cs with
    | none =>
      cases lastSummary cs with
      | none => rfl
      | some b => cases b <;> decide
    | some m =>
      cases lastSummary cs with
      | none =>
        simp only [String.data_append, List.count_append, hc m '&' (by decide), pairsOf]
        rfl
      | some b =>
        cases b <;>
        · simp only [String.data_append, List.count_append, hc m '&' (by decide), pairsOf,
            FormatBool]
          rfl

/-- Witness of C26: after `Summary(true)`, `MasterTimeout("1&2")`, `Id("x")`
and `MasterTimeout("30 s&summary=false")` the query string of the built URL is
`master_timeout=30+s%26summary%3Dfalse&summary=true`, with the id in the path or
another one; the escaped value unescapes to the bytes of `30 s&summary=false`. -/
theorem getPipeline_query_encoded_witness :
    (((run (New (constTransport (.error connectionRefused)))
          [Call.Summary true, Call.MasterTimeout "1&2", Call.Id "x",
            Call.MasterTimeout "30 s&summary=false"]).HttpRequest none).2.toOption.map
          fun q => q.URL.RawQuery)
        = some "master_timeout=30+s%26summary%3Dfalse&summary=true"
      ∧ ((((run (New (constTransport (.error connectionRefused)))
          [Call.Summary true, Call.MasterTimeout "1&2", Call.Id "x",
            Call.MasterTimeout "30 s&summary=false"]).Id "y").HttpRequest none).2.toOption.map
          fun q => (q.URL.Path, q.URL.RawQuery))
        = some ("/_ingest/pipeline/y", "master_timeout=30+s%26summary%3Dfalse&summary=true")
      ∧ QueryEscape "30 s&summary=false" = "30+s%26summary%3Dfalse"
      ∧ QueryUnescape "30+s%26summary%3Dfalse" = some (utf8Bytes "30 s&summary=false")
      ∧ QueryEscape "é/?#;=+%~" = "%C3%A9%2F%3F%23%3B%3D%2B%25~" :=
  ⟨(getPipeline_query_encoded (constTransport (.error connectionRefused))
      [Call.Summary true, Call.MasterTimeout "1&2", Call.Id "x",
        Call.MasterTimeout "30 s&summary=false"] "y" none).1.trans (by decide),
   (getPipeline_query_encoded (constTransport (.error connectionRefused))
      [Call.Summary true, Call.MasterTimeout "1&2", Call.Id "x",
        Call.MasterTimeout "30 s&summary=false"] "y" none).2.1.trans (by decide),
   by decide,
   (getPipeline_query_encoded (constTransport (.error connectionRefused))
      [Call.Summary true, Call.MasterTimeout "1&2", Call.Id "x",
        Call.MasterTimeout "30 s&summary=false"] "y" none).2.2.2.2.2.2.2.1 "30 s&summary=false",
   by decide⟩

end getpipeline

/-! ## Claims about the enumeration `DFIIndependenceMeasure` -/

namespace dfiindependencemeasure

theorem ToLower_standardized (lower : Char → Char) :
    ToLower lower "standardized" = "standardized" := by
  rfl

theorem ToLower_saturated (lower : Char → Char) : ToLower lower "saturated" = "saturated" := by
  rfl

theorem ToLower_chisquared (lower : Char → Char) : ToLower lower "chisquared" = "chisquared" := by
  rfl

/-- C27: for every text `t` (and every table of lower cases beyond ASCII),
`UnmarshalText` returns nil; the value becomes `Standardized`, `Saturated` or
`Chisquared` when the lower-cased `t` is `standardized`, `saturated` or
`chisquared`, whatever the case of the letters of `t`, and otherwise its `Name`
becomes `t` itself. -/
theorem unmarshalText_by_lower_case (lower : Char → Char) (d : DFIIndependenceMeasure)
    (t : Text) :
    (d.UnmarshalText lower t).2 = none
      ∧ (ToLower lower t = "standardized" → (d.UnmarshalText lower t).1 = Standardized)
      ∧ (ToLower lower t = "saturated" → (d.UnmarshalText lower t).1 = Saturated)
      ∧ (ToLower lower t = "chisquared" → (d.UnmarshalText lower t).1 = Chisquared)
      ∧ (ToLower lower t ≠ "standardized" → ToLower lower t ≠ "saturated" →
          ToLower lower t ≠ "chisquared" → (d.UnmarshalText lower t).1 = ⟨t⟩)
      ∧ (d.UnmarshalText lower "STANDARDIZED").1 = Standardized
      ∧ (d.UnmarshalText lower "Saturated").1 = Saturated
      ∧ (d.UnmarshalText lower "chiSquared").1 = Chisquared
      ∧ (d.UnmarshalText lower "Standard").1 = ⟨"Standard"⟩ := by
  refine ⟨rfl, ?_, ?_, ?_, ?_, rfl, rfl, rfl, rfl⟩
  · intro h
    simp [DFIIndependenceMeasure.UnmarshalText, h]
  · intro h
    simp [DFIIndependenceMeasure.UnmarshalText, h]
  · intro h
    simp [DFIIndependenceMeasure.UnmarshalText, h]
  · intro h1 h2 h3
    simp [DFIIndependenceMeasure.UnmarshalText, h1, h2, h3]

/-- Witness of C27: the texts `sAtUrAtEd` and `dfi`, with no lower cases
beyond ASCII. -/
theorem unmarshalText_by_lower_case_witness :
    (Standardized.UnmarshalText id "sAtUrAtEd").1 = Saturated
      ∧ (Standardized.UnmarshalText id "sAtUrAtEd").2 = none
      ∧ (Standardized.UnmarshalText id "Dfi").1 = ⟨"Dfi"⟩ :=
  ⟨(unmarshalText_by_lower_case id Standardized "sAtUrAtEd").2.2.1 (by decide),
   (unmarshalText_by_lower_case id Standardized "sAtUrAtEd").1,
   (unmarshalText_by_lower_case id Standardized "Dfi").2.2.2.2.1 (by decide) (by decide)
    (by decide)⟩

/-- C28: for every text `t`, the value `d` that `UnmarshalText(t)` leaves is
left again by `UnmarshalText(MarshalText(d))`; the three declared values
round-trip; the value with the name `STANDARDIZED`, which no `UnmarshalText`
leaves, does not. -/
theorem marshalText_unmarshalText (lower : Char → Char) (d0 d1 : DFIIndependenceMeasure)
    (t : Text) :
    (d1.UnmarshalText lower ((d0.UnmarshalText lower t).1.MarshalText).1).1
        = (d0.UnmarshalText lower t).1
      ∧ ((d0.UnmarshalText lower t).1.MarshalText).2 = none
      ∧ (d1.UnmarshalText lower (Standardized.MarshalText).1).1 = Standardized
      ∧ (d1.UnmarshalText lower (Saturated.MarshalText).1).1 = Saturated
      ∧ (d1.UnmarshalText lower (Chisquared.MarshalText).1).1 = Chisquared
      ∧ (d1.UnmarshalText lower ((DFIIndependenceMeasure.mk "STANDARDIZED").MarshalText).1).1
        ≠ ⟨"STANDARDIZED"⟩ := by
  refine ⟨?_, rfl, rfl, rfl, rfl, ?_⟩
  · by_cases h1 : ToLower lower t = "standardized"
    · rw [(unmarshalText_by_lower_case lower d0 t).2.1 h1]
      rfl
    · by_cases h2 : ToLower lower t = "saturated"
      · rw [(unmarshalText_by_lower_case lower d0 t).2.2.1 h2]
        rfl
      · by_cases h3 : ToLower lower t = "chisquared"
        · rw [(unmarshalText_by_lower_case lower d0 t).2.2.2.1 h3]
          rfl
        · rw [(unmarshalText_by_lower_case lower d0 t).2.2.2.2.1 h1 h2 h3]
          exact (unmarshalText_by_lower_case lower d1 t).2.2.2.2.1 h1 h2 h3
  · have : (d1.UnmarshalText lower
        ((DFIIndependenceMeasure.mk "STANDARDIZED").MarshalText).1).1 = Standardized := rfl
    rw [this]
    decide

end dfiindependencemeasure

/-! ## Claims about the raw override and the constructors -/

namespace closepointintime

/-- C29: on a fresh `ClosePointInTime` configuration with a payload,
`Raw(nil)` leaves the body equal to the serialisation of the payload, and `Raw`
of an empty message that is not nil gives an empty body, whatever the payload
is and without error, and a request without `Content-Type` header. -/
theorem closePointInTime_raw_nil_or_empty {Req σ : Type}
    (marshal : Req → Except GoError Bytes) (tp : Transport σ) (req : Req) (data : Bytes)
    (ctx : Option Context) :
    (marshal req = .ok data →
        (((((New tp).Request (some req)).Raw none).HttpRequest marshal ctx).2.toOption.map
          fun q => q.Body) = some data)
      ∧ (((((New tp).Request (some req)).Raw (some [])).HttpRequest marshal ctx).2.toOption.map
          fun q => (q.Body, q.Header.Has "Content-Type")) = some ([], false)
      ∧ (((((New tp).Raw (some [])).Request (some req)).HttpRequest marshal ctx).2.toOption.map
          fun q => (q.Body, q.Header.Has "Content-Type")) = some ([], false) := by
  refine ⟨?_, ?_, ?_⟩
  · intro h
    have hw : ClosePointInTime.writeBody marshal (((New tp).Request (some req)).Raw none)
        = .ok { ((New tp).Request (some req)).Raw none with buf := [] ++ data } := by
      simp [ClosePointInTime.writeBody, ClosePointInTime.Request, ClosePointInTime.Raw, New, h]
    rw [closePointInTime_HttpRequest_of_writeBody marshal _ _ ctx hw]
    rfl
  · have hw : ClosePointInTime.writeBody marshal (((New tp).Request (some req)).Raw (some []))
        = .ok { ((New tp).Request (some req)).Raw (some []) with buf := [] ++ [] } := rfl
    rw [closePointInTime_HttpRequest_of_writeBody marshal _ _ ctx hw]
    rfl
  · have hw : ClosePointInTime.writeBody marshal (((New tp).Raw (some [])).Request (some req))
        = .ok { ((New tp).Raw (some [])).Request (some req) with buf := [] ++ [] } := rfl
    rw [closePointInTime_HttpRequest_of_writeBody marshal _ _ ctx hw]
    rfl

/-- Witness of C29: the payload `3`, which serialises to the byte `2`, and the
payload `0`, which cannot be serialised. -/
theorem closePointInTime_raw_nil_or_empty_witness :
    (((((New (constTransport (.error connectionRefused))).Request (some 3)).Raw
          none).HttpRequest sampleMarshal none).2.toOption.map fun q => q.Body) = some [2]
      ∧ (((((New (constTransport (.error connectionRefused))).Request (some 0)).Raw
          (some [])).HttpRequest sampleMarshal none).2.toOption.map
            fun q => (q.Body, q.Header.Has "Content-Type")) = some ([], false) :=
  ⟨(closePointInTime_raw_nil_or_empty sampleMarshal (constTransport (.error connectionRefused))
      3 [2] none).1 (by decide),
   (closePointInTime_raw_nil_or_empty sampleMarshal (constTransport (.error connectionRefused))
      0 [] none).2.1⟩

end closepointintime

namespace types

/-- C30: the four constructors return a value whose `Type` is `standard`,
`pattern`, `icu_normalizer` and `shape`, with every other field at its zero
value, except the maps `Fields`, `Meta` and `Properties` of the shape
property, which are empty and not nil. -/
theorem constructors_preset_type (Mode Kind Dynamic Orientation Property : Type) :
    NewStandardAnalyzer = { MaxTokenLength := none, Stopwords := none, Type_ := "standard" }
      ∧ NewPatternTokenizer
        = { Flags := "", Group := 0, Pattern := "", Type_ := "pattern", Version := none }
      ∧ (NewIcuNormalizationCharFilter : IcuNormalizationCharFilter Mode Kind)
        = { Mode := none, Name := none, Type_ := "icu_normalizer", Version := none }
      ∧ (NewShapeProperty : ShapeProperty Dynamic Orientation Property)
        = { Coerce := none, CopyTo := none, DocValues := none, Dynamic := none,
            Fields := some [], IgnoreAbove := none, IgnoreMalformed := none,
            IgnoreZValue := none, Meta := some [], Orientation := none,
            Properties := some [], Similarity := none, Store := none, Type_ := "shape" } :=
  ⟨rfl, rfl, rfl, rfl⟩

end types

end GoElastic
